import Mathlib

/-!
# uWSGI vassal plugin: metric aggregation and collection passes

A shallow embedding of `mackerel-plugin-uwsgi-vassal/lib/uwsgi_vassal.go`.

* `F64` models the `float64` values the plugin computes with: the metric map
  has type `map[string]float64`, every value in it is a sum of converted
  `uint64` fields or a quotient of two such values, hence non-negative.
  Rounding is IEEE 754 round-to-nearest, ties-to-even, with 53 significant
  bits, gradual underflow and overflow to `+Inf`.
* `Stat` models `map[string]float64` as a partial function on keys.
* `FetchMetrics` threads an explicit environment (dial, HTTP client, JSON
  decoder) and records the network events of a pass.
* `GraphDefinition` is the list of entries of the map literal; `strings.Title`
  is a parameter.
* `DecodeWorkers` models the JSON decoder on the declared record types.
-/

namespace UWSGIVassal

/-! ## float64 -/

/-- The `float64` values reachable by the plugin: a finite non-negative value
(kept as the exact rational it denotes), `+Inf`, or `NaN`. -/
inductive F64 where
  | fin (q : ℚ)
  | inf
  | nan
  deriving DecidableEq

instance : Inhabited F64 := ⟨F64.fin 0⟩

/-- Nearest integer to `num / den` (`den > 0`), a tie going to the even one. -/
def roundTiesEven (num den : Nat) : Nat :=
  let m := num / den
  let r := num % den
  if 2 * r < den then m
  else if den < 2 * r then m + 1
  else if m % 2 = 0 then m else m + 1

/-- Number of halvings that bring `fl` below `2^53`; `fuel` bounds the
recursion. -/
def ulpShiftAux : Nat → Nat → Nat
  | 0, _ => 0
  | fuel + 1, fl => if fl < 2 ^ 53 then 0 else ulpShiftAux fuel (fl / 2) + 1

/-- Binary exponent of the unit in the last place for a value whose integer
part, counted in units of `2^-1074`, is `fl`: zero for subnormals and for the
first normal binade, otherwise the least shift that leaves a 53-bit
significand. -/
def ulpShift (fl : Nat) : Nat := ulpShiftAux fl fl

/-- Round the non-negative rational `num / den` to `float64`. The work is done
in units of `2^-1074`, the smallest positive `float64`: every finite
`float64` is `m * 2^s` such units with `m < 2^53` and `s ≤ 2045`. -/
def roundFrac (num den : Nat) : F64 :=
  let N := num * 2 ^ 1074
  let s := ulpShift (N / den)
  let r := roundTiesEven N (den * 2 ^ s) * 2 ^ s
  if r < 2 ^ 2098 then F64.fin (mkRat r (2 ^ 1074)) else F64.inf

/-- Round a non-negative rational to `float64`. -/
def roundF64 (q : ℚ) : F64 := roundFrac q.num.toNat q.den

/-- The conversion `float64(n)` of a non-negative integer (`uint64` field or
`len` of a slice). -/
def float64 (n : Nat) : F64 := roundFrac n 1

/-- The `float64` addition `a + b` on non-negative operands. -/
def fadd : F64 → F64 → F64
  | F64.fin a, F64.fin b => roundF64 (a + b)
  | F64.nan, _ => F64.nan
  | _, F64.nan => F64.nan
  | _, _ => F64.inf

/-- The `float64` division `a / b` on non-negative operands. -/
def fdiv : F64 → F64 → F64
  | F64.fin a, F64.fin b =>
    if b = 0 then (if a = 0 then F64.nan else F64.inf) else roundF64 (a / b)
  | F64.fin _, F64.inf => F64.fin 0
  | F64.inf, F64.fin _ => F64.inf
  | _, _ => F64.nan

/-- Left-to-right `float64` sum of the converted values of one field, from
the accumulator `acc`. -/
def fsum (f : α → Nat) (acc : F64) (xs : List α) : F64 :=
  xs.foldl (fun a x => fadd a (float64 (f x))) acc

/-! ## Data model -/

/-- Plugin configuration (`type UWSGIVassalPlugin struct`). -/
structure UWSGIVassalPlugin where
  Socket : String
  Prefix : String
  LabelPrefix : String
  deriving DecidableEq, Repr

/-- One decoded worker record (`type UWSGIWorker struct`); the numeric fields
are `uint64` in the source. -/
structure UWSGIWorker where
  Requests : Nat
  Status : String
  Rss : Nat
  Vsz : Nat
  Tx : Nat
  AvgRequestTime : Nat
  HarakiriCount : Nat
  RespawnCount : Nat
  deriving DecidableEq, Repr

/-- The decoded document (`type UWSGIWorkers struct`). -/
structure UWSGIWorkers where
  Workers : List UWSGIWorker
  deriving DecidableEq, Repr

/-- A `map[string]float64`: `none` is an absent key. -/
abbrev Stat := String → Option F64

/-- The result of `make(map[string]float64)`. -/
def Stat.empty : Stat := fun _ => none

/-- The index expression `stat[k]`: the zero value for an absent key. -/
def Stat.get (stat : Stat) (k : String) : F64 := (stat k).getD (F64.fin 0)

/-- The assignment `stat[k] = v`. -/
def Stat.set (stat : Stat) (k : String) (v : F64) : Stat :=
  fun k' => if k' = k then some v else stat k'

/-- The compound assignment `stat[k] += v`. -/
def Stat.add (stat : Stat) (k : String) (v : F64) : Stat :=
  stat.set k (fadd (stat.get k) v)

/-! ## Aggregation (`FetchMetrics`, lines 130-138 and 171-188) -/

/-- The map as initialised at the top of `FetchMetrics` (lines 130-138). -/
def initStat : Stat :=
  (((((((Stat.empty.set "busy" (F64.fin 0)).set "idle" (F64.fin 0)).set "cheap" (F64.fin 0)).set
    "pause" (F64.fin 0)).set "requests" (F64.fin 0)).set "rss" (F64.fin 0)).set
    "vsz" (F64.fin 0)).set "avg_rt" (F64.fin 0)

/-- The guard of the `switch worker.Status` statement. -/
def isState (s : String) : Bool :=
  s = "idle" || s = "busy" || s = "cheap" || s = "pause"

/-- The `switch worker.Status` statement (lines 172-175): `stat[worker.Status]++`
for the four listed states, nothing otherwise. -/
def countState (stat : Stat) (worker : UWSGIWorker) : Stat :=
  if isState worker.Status then stat.add worker.Status (F64.fin 1) else stat

/-- One iteration of the loop over `workers.Workers` (lines 172-182). -/
def loopBody (stat : Stat) (worker : UWSGIWorker) : Stat :=
  let stat := countState stat worker
  let stat := stat.add "requests" (float64 worker.Requests)
  let stat := stat.add "rss" (float64 worker.Rss)
  let stat := stat.add "vsz" (float64 worker.Vsz)
  let stat := stat.add "tx" (float64 worker.Tx)
  let stat := stat.add "avg_rt" (float64 worker.AvgRequestTime)
  let stat := stat.add "harakiri_count" (float64 worker.HarakiriCount)
  stat.add "respawn_count" (float64 worker.RespawnCount)

/-- The loop `for _, worker := range workers.Workers` (lines 171-183). -/
def aggregateLoop (stat : Stat) (workers : List UWSGIWorker) : Stat :=
  workers.foldl loopBody stat

/-- The averaging step after the loop (lines 184-186). -/
def averageStep (stat : Stat) (workers : List UWSGIWorker) : Stat :=
  if workers.length > 0 then
    stat.set "avg_rt" (fdiv (stat.get "avg_rt") (float64 workers.length))
  else stat

/-- The aggregation of a decoded worker sequence: initialisation, loop and
averaging step. -/
def aggregate (workers : List UWSGIWorker) : Stat :=
  averageStep (aggregateLoop initStat workers) workers

/-- The increment `x++` on a `float64`. -/
def bump (a : F64) : F64 := fadd a (F64.fin 1)

/-! ## The collection pass (`FetchMetrics`, lines 129-189) -/

/-- A Go `error` value, identified by its message. -/
abbrev Error := String

/-- The library call `strings.HasPrefix`. -/
def HasPrefix (s pre : String) : Bool := pre.data.isPrefixOf s.data

/-- The library call `strings.TrimPrefix`. -/
def TrimPrefix (s pre : String) : String :=
  if HasPrefix s pre then String.mk (s.data.drop pre.data.length) else s

/-- An HTTP request, as far as `FetchMetrics` builds it: `http.NewRequest`
followed by `req.Header.Set("User-Agent", ...)`. -/
structure Request where
  Method : String
  URL : String
  UserAgent : String
  deriving DecidableEq, Repr

/-- An HTTP response: `resp.StatusCode` and the bytes `resp.Body` delivers. -/
structure Response where
  StatusCode : Nat
  Body : String
  deriving DecidableEq, Repr

/-- The outcome of every library call a pass makes. `Dial` is `net.Dial` (its
result stands for the bytes the connection delivers), `NewRequest` is
`http.NewRequest`, `Do` is `http.DefaultClient.Do` (which hands back any HTTP
response, whatever its status code, and fails on transport errors only),
`Decode` is `json.NewDecoder(r).Decode(&workers)` on the bytes of `r`. -/
structure Env where
  Dial : String → String → Except Error String
  NewRequest : String → String → Except Error Request
  Do : Request → Except Error Response
  Decode : String → Except Error UWSGIWorkers

/-- What a pass does to the outside world, in order. -/
inductive Event where
  | dial (network address : String) (ok : Bool)
  | roundTrip (req : Request) (ok : Bool)
  | decode
  | connClose
  | bodyClose
  deriving DecidableEq, Repr

/-- The event is a successful `net.Dial`: a connection is now open. -/
def Event.opensConn : Event → Bool
  | Event.dial _ _ true => true
  | _ => false

/-- The event is a successful `http.DefaultClient.Do`: a response body is now
open. -/
def Event.opensBody : Event → Bool
  | Event.roundTrip _ true => true
  | _ => false

/-- The event is a network attempt (a dial or an HTTP request). -/
def Event.isNetwork : Event → Bool
  | Event.dial _ _ _ => true
  | Event.roundTrip _ _ => true
  | _ => false

/-- The two results of `FetchMetrics` (`stat = none` is the `nil` map,
`err = none` the `nil` error) and the events of the pass. -/
structure Pass where
  stat : Option Stat
  err : Option Error
  trace : List Event

/-- The request `FetchMetrics` sends: the one `http.NewRequest` built, with the
`User-Agent` header set. -/
def tagged (req : Request) : Request :=
  { req with UserAgent := "mackerel-plugin-uwsgi-vessal" }

/-- The error of the final `else` branch (line 162). -/
def schemeError : Error :=
  "\'--socket\' is neither http endpoint nor the unix domain socket, " ++
    "try \'--help\' for more information"

/-- Lines 166-188: decode the stream, then aggregate into `stat`. -/
def decodeAndAggregate (env : Env) (stat : Stat) (stream : String) :
    Option Stat × Option Error :=
  match env.Decode stream with
  | Except.error err => (none, some err)
  | Except.ok workers => (some (averageStep (aggregateLoop stat workers.Workers) workers.Workers), none)

/-- The method `FetchMetrics`. A deferred `Close` runs when the function
returns, hence last in the trace of every path that registered it. -/
def FetchMetrics (env : Env) (p : UWSGIVassalPlugin) : Pass :=
  let stat := initStat
  if HasPrefix p.Socket "unix://" then
    let address := TrimPrefix p.Socket "unix://"
    match env.Dial "unix" address with
    | Except.error err => { stat := none, err := some err, trace := [Event.dial "unix" address false] }
    | Except.ok conn =>
      let r := decodeAndAggregate env stat conn
      { stat := r.1, err := r.2,
        trace := [Event.dial "unix" address true, Event.decode, Event.connClose] }
  else if HasPrefix p.Socket "http://" then
    match env.NewRequest "GET" p.Socket with
    | Except.error err => { stat := none, err := some err, trace := [] }
    | Except.ok req0 =>
      let req := tagged req0
      match env.Do req with
      | Except.error err => { stat := none, err := some err, trace := [Event.roundTrip req false] }
      | Except.ok resp =>
        let r := decodeAndAggregate env stat resp.Body
        { stat := r.1, err := r.2,
          trace := [Event.roundTrip req true, Event.decode, Event.bodyClose] }
  else
    { stat := none, err := some schemeError, trace := [] }

/-- The exit paths of `FetchMetrics`, one constructor for each `return`
statement reached under each outcome of the library calls. -/
inductive PassPath (env : Env) (p : UWSGIVassalPlugin) : Pass → Prop where
  | schemeError (hu : HasPrefix p.Socket "unix://" = false)
      (hh : HasPrefix p.Socket "http://" = false) :
      PassPath env p (Pass.mk none (some schemeError) [])
  | dialError (e : Error) (hu : HasPrefix p.Socket "unix://" = true)
      (hd : env.Dial "unix" (TrimPrefix p.Socket "unix://") = Except.error e) :
      PassPath env p
        (Pass.mk none (some e) [Event.dial "unix" (TrimPrefix p.Socket "unix://") false])
  | unixDecodeError (conn : String) (e : Error) (hu : HasPrefix p.Socket "unix://" = true)
      (hd : env.Dial "unix" (TrimPrefix p.Socket "unix://") = Except.ok conn)
      (hdec : env.Decode conn = Except.error e) :
      PassPath env p (Pass.mk none (some e)
        [Event.dial "unix" (TrimPrefix p.Socket "unix://") true, Event.decode, Event.connClose])
  | unixSuccess (conn : String) (ws : UWSGIWorkers) (hu : HasPrefix p.Socket "unix://" = true)
      (hd : env.Dial "unix" (TrimPrefix p.Socket "unix://") = Except.ok conn)
      (hdec : env.Decode conn = Except.ok ws) :
      PassPath env p (Pass.mk (some (aggregate ws.Workers)) none
        [Event.dial "unix" (TrimPrefix p.Socket "unix://") true, Event.decode, Event.connClose])
  | newRequestError (e : Error) (hu : HasPrefix p.Socket "unix://" = false)
      (hh : HasPrefix p.Socket "http://" = true)
      (hn : env.NewRequest "GET" p.Socket = Except.error e) :
      PassPath env p (Pass.mk none (some e) [])
  | doError (req : Request) (e : Error) (hu : HasPrefix p.Socket "unix://" = false)
      (hh : HasPrefix p.Socket "http://" = true)
      (hn : env.NewRequest "GET" p.Socket = Except.ok req)
      (hd : env.Do (tagged req) = Except.error e) :
      PassPath env p (Pass.mk none (some e) [Event.roundTrip (tagged req) false])
  | httpDecodeError (req : Request) (resp : Response) (e : Error)
      (hu : HasPrefix p.Socket "unix://" = false) (hh : HasPrefix p.Socket "http://" = true)
      (hn : env.NewRequest "GET" p.Socket = Except.ok req)
      (hd : env.Do (tagged req) = Except.ok resp)
      (hdec : env.Decode resp.Body = Except.error e) :
      PassPath env p (Pass.mk none (some e)
        [Event.roundTrip (tagged req) true, Event.decode, Event.bodyClose])
  | httpSuccess (req : Request) (resp : Response) (ws : UWSGIWorkers)
      (hu : HasPrefix p.Socket "unix://" = false) (hh : HasPrefix p.Socket "http://" = true)
      (hn : env.NewRequest "GET" p.Socket = Except.ok req)
      (hd : env.Do (tagged req) = Except.ok resp)
      (hdec : env.Decode resp.Body = Except.ok ws) :
      PassPath env p (Pass.mk (some (aggregate ws.Workers)) none
        [Event.roundTrip (tagged req) true, Event.decode, Event.bodyClose])

/-- The request `http.NewRequest` builds when the URL parses. -/
def newRequestOk (method url : String) : Except Error Request :=
  Except.ok { Method := method, URL := url, UserAgent := "" }

/-- An endpoint that answers every dial and every GET with the document
`{"workers":[]}`, the GET with status 200. -/
def emptySnapshotEnv : Env :=
  { Dial := fun _ _ => Except.ok "\x7b\"workers\":[]\x7d",
    NewRequest := newRequestOk,
    Do := fun _ => Except.ok { StatusCode := 200, Body := "\x7b\"workers\":[]\x7d" },
    Decode := fun _ => Except.ok { Workers := [] } }

/-- An endpoint that answers every GET with status 500 and the well-formed
body `{"workers":[]}`. -/
def status500Env : Env :=
  { Dial := fun _ _ => Except.error "dial unix: connect: no such file or directory",
    NewRequest := newRequestOk,
    Do := fun _ => Except.ok { StatusCode := 500, Body := "\x7b\"workers\":[]\x7d" },
    Decode := fun _ => Except.ok { Workers := [] } }

/-- An endpoint that cannot be reached at all. -/
def unreachableEnv : Env :=
  { Dial := fun _ _ => Except.error "dial unix: connect: connection refused",
    NewRequest := newRequestOk,
    Do := fun _ => Except.error "Get: dial tcp: connect: connection refused",
    Decode := fun _ => Except.error "EOF" }

/-- An endpoint that answers with bytes that are no JSON document. -/
def garbageEnv : Env :=
  { Dial := fun _ _ => Except.ok "not json",
    NewRequest := newRequestOk,
    Do := fun _ => Except.ok { StatusCode := 200, Body := "not json" },
    Decode := fun _ => Except.error "invalid character \'o\' in literal null (expecting \'u\')" }

/-- A plugin value for a unix socket address. -/
def unixPlugin : UWSGIVassalPlugin :=
  { Socket := "unix:///tmp/uwsgi.sock", Prefix := "uWSGI", LabelPrefix := "UWSGI" }

/-- A plugin value for an HTTP address. -/
def httpPlugin : UWSGIVassalPlugin :=
  { Socket := "http://localhost:9191/", Prefix := "uWSGI", LabelPrefix := "UWSGI" }

/-- The request a pass of `httpPlugin` sends. -/
def httpRequest : Request :=
  { Method := "GET", URL := "http://localhost:9191/", UserAgent := "mackerel-plugin-uwsgi-vessal" }

/-- A plugin value whose address has an unsupported scheme. -/
def ftpPlugin : UWSGIVassalPlugin :=
  { Socket := "ftp://host", Prefix := "uWSGI", LabelPrefix := "UWSGI" }

/-- The keys set when the map is created (lines 131-138). -/
def initKeys : List String :=
  ["busy", "idle", "cheap", "pause", "requests", "rss", "vsz", "avg_rt"]

/-- The keys that only an iteration of the loop creates (lines 179, 181, 182). -/
def loopOnlyKeys : List String := ["tx", "harakiri_count", "respawn_count"]

/-- The spec's formula for `avg_rt`, read in `float64` arithmetic:
`(Σ avg_request_time) / len(W)` when `len(W) > 0`, else `0.0`. It looks at the
`avg_request_time` values only. -/
def meanAvgRt (avgs : List Nat) : F64 :=
  if avgs.length > 0 then fdiv (fsum id (F64.fin 0) avgs) (float64 avgs.length) else F64.fin 0

/-- Membership of a status in the set {busy, idle, cheap, pause}. -/
def knownState (s : String) : Prop :=
  s = "busy" ∨ s = "idle" ∨ s = "cheap" ∨ s = "pause"

instance (s : String) : Decidable (knownState s) := by
  unfold knownState; infer_instance

/-- Every field total of the sequence is at most `2^53`, the range in which
`float64` holds integers exactly. -/
def ExactTotals (W : List UWSGIWorker) : Prop :=
  (W.map UWSGIWorker.Requests).sum ≤ 2 ^ 53 ∧ (W.map UWSGIWorker.Rss).sum ≤ 2 ^ 53 ∧
  (W.map UWSGIWorker.Vsz).sum ≤ 2 ^ 53 ∧ (W.map UWSGIWorker.Tx).sum ≤ 2 ^ 53 ∧
  (W.map UWSGIWorker.AvgRequestTime).sum ≤ 2 ^ 53 ∧
  (W.map UWSGIWorker.HarakiriCount).sum ≤ 2 ^ 53 ∧
  (W.map UWSGIWorker.RespawnCount).sum ≤ 2 ^ 53

instance (W : List UWSGIWorker) : Decidable (ExactTotals W) := by
  unfold ExactTotals; infer_instance

/-- A worker that is idle and has served `requests` requests. -/
def idleWorker (requests : Nat) : UWSGIWorker :=
  { Requests := requests, Status := "idle", Rss := 0, Vsz := 0, Tx := 0, AvgRequestTime := 0,
    HarakiriCount := 0, RespawnCount := 0 }

/-- Three workers, the first having served `2^53` requests. -/
def bigFirst : List UWSGIWorker :=
  [idleWorker 9007199254740992, idleWorker 1, idleWorker 1]

/-- The same three workers, the busiest one last. -/
def bigLast : List UWSGIWorker :=
  [idleWorker 1, idleWorker 1, idleWorker 9007199254740992]

/-- The worker sequence of the spec's worked example. -/
def exampleWorkers : List UWSGIWorker :=
  [{ Requests := 5, Status := "busy", Rss := 100, Vsz := 0, Tx := 0, AvgRequestTime := 10,
     HarakiriCount := 0, RespawnCount := 0 },
   { Requests := 3, Status := "idle", Rss := 50, Vsz := 0, Tx := 0, AvgRequestTime := 20,
     HarakiriCount := 0, RespawnCount := 0 },
   { Requests := 1, Status := "weird", Rss := 1, Vsz := 0, Tx := 0, AvgRequestTime := 30,
     HarakiriCount := 0, RespawnCount := 0 }]

/-! ## Graph schema (`GraphDefinition`, lines 192-246) and key prefix -/

/-- One metric of a graph (`mp.Metrics`), with the fields the plugin sets; a
flag the literal leaves out has Go's zero value `false`. -/
structure Metrics where
  Name : String
  Label : String
  Diff : Bool
  Stacked : Bool
  deriving DecidableEq, Repr

/-- One grouping (`mp.Graphs`). -/
structure Graphs where
  Label : String
  Unit : String
  Metrics : List Metrics
  deriving DecidableEq, Repr

/-- The method `GraphDefinition`: the entries of the map literal, in the order
the source lists them (their keys are pairwise distinct, so the map has one
grouping for each entry). `title` stands for the library function
`strings.Title`. -/
def GraphDefinition (title : String → String) (p : UWSGIVassalPlugin) :
    List (String × Graphs) :=
  let labelPrefix := title p.Prefix
  [ (p.Prefix ++ ".workers",
      { Label := labelPrefix ++ " Workers", Unit := "integer",
        Metrics := [
          { Name := "busy", Label := "Busy", Diff := false, Stacked := true },
          { Name := "idle", Label := "Idle", Diff := false, Stacked := true },
          { Name := "cheap", Label := "Cheap", Diff := false, Stacked := true },
          { Name := "pause", Label := "Pause", Diff := false, Stacked := true } ] }),
    (p.Prefix ++ ".req",
      { Label := labelPrefix ++ " Requests", Unit := "float",
        Metrics := [
          { Name := "requests", Label := "Requests", Diff := true, Stacked := false } ] }),
    (p.Prefix ++ ".memory",
      { Label := labelPrefix ++ " Memory", Unit := "bytes",
        Metrics := [
          { Name := "rss", Label := "RSS", Diff := false, Stacked := false },
          { Name := "vsz", Label := "VSZ", Diff := false, Stacked := false } ] }),
    (p.Prefix ++ ".network",
      { Label := labelPrefix ++ " Network", Unit := "bytes",
        Metrics := [
          { Name := "tx", Label := "TX", Diff := true, Stacked := false } ] }),
    (p.Prefix ++ ".reqtime",
      { Label := labelPrefix ++ " RequestsTime", Unit := "integer",
        Metrics := [
          { Name := "avg_rt", Label := "Average[us]", Diff := false, Stacked := false } ] }),
    (p.Prefix ++ ".counter",
      { Label := labelPrefix ++ " Counter", Unit := "integer",
        Metrics := [
          { Name := "harakiri_count", Label := "Harakiri", Diff := false, Stacked := false },
          { Name := "respawn_count", Label := "Respawn", Diff := false, Stacked := false } ] }) ]

/-- The keys of the graph definition, in source order. -/
def graphKeys (title : String → String) (p : UWSGIVassalPlugin) : List String :=
  (GraphDefinition title p).map Prod.fst

/-- Every metric of the graph definition, across the groupings. -/
def graphMetrics (title : String → String) (p : UWSGIVassalPlugin) : List Metrics :=
  (GraphDefinition title p).flatMap (fun e => e.2.Metrics)

/-- The six key suffixes. -/
def graphSuffixes : List String :=
  [".workers", ".req", ".memory", ".network", ".reqtime", ".counter"]

/-- The eleven metric names, in the order the graph definition lists them. -/
def metricNames : List String :=
  ["busy", "idle", "cheap", "pause", "requests", "rss", "vsz", "tx", "avg_rt",
    "harakiri_count", "respawn_count"]

/-- The body of the method `MetricKeyPrefix`, run on the receiver: the result
and the receiver as the body leaves it. -/
def MetricKeyPrefixBody (p : UWSGIVassalPlugin) : String × UWSGIVassalPlugin :=
  let p := if p.Prefix = "" then { p with Prefix := "uWSGI" } else p
  (p.Prefix, p)

/-- The result of the method `MetricKeyPrefix`. -/
def MetricKeyPrefix (p : UWSGIVassalPlugin) : String := (MetricKeyPrefixBody p).1

/-- A call `p.MetricKeyPrefix()`: the receiver is passed by value, so the body
runs on a copy and the caller keeps its own value. Returns the result and the
caller's value after the call. -/
def callMetricKeyPrefix (caller : UWSGIVassalPlugin) : String × UWSGIVassalPlugin :=
  ((MetricKeyPrefixBody caller).1, caller)

/-- A plugin value with an empty prefix. -/
def noPrefixPlugin : UWSGIVassalPlugin :=
  { Socket := "unix:///tmp/uwsgi.sock", Prefix := "", LabelPrefix := "" }

/-- The metric names of each grouping, in source order. -/
def graphNameLists (title : String → String) (p : UWSGIVassalPlugin) : List (List String) :=
  (GraphDefinition title p).map (fun e => e.2.Metrics.map Metrics.Name)

/-! ## Decoding the snapshot (`decoder.Decode(&workers)`, lines 166-169)

The decoder is `json.Decoder.Decode` of package `encoding/json`; only the
declarations it is driven by (`UWSGIWorker`, `UWSGIWorkers` and their tags) are
in the source. -/

/-- Modelled from the spec: the JSON document a snapshot stream carries (§4.2,
§6), as the decoder sees it once the syntax is read. A number literal made of
digits only is `nat`; every other number literal (with a sign, a fraction or
an exponent) is `number`. -/
inductive JSON where
  | null
  | bool (b : Bool)
  | nat (n : Nat)
  | number (literal : String)
  | str (s : String)
  | arr (elems : List JSON)
  | obj (members : List (String × JSON))

/-- The fields of `UWSGIWorker`, in declaration order (lines 113-120). -/
inductive Field where
  | Requests | Status | Rss | Vsz | Tx | AvgRequestTime | HarakiriCount | RespawnCount
  deriving DecidableEq, Repr

/-- The `json:"..."` tag of each field (lines 113-120). -/
def Field.tag : Field → String
  | Field.Requests => "requests"
  | Field.Status => "status"
  | Field.Rss => "rss"
  | Field.Vsz => "vsz"
  | Field.Tx => "tx"
  | Field.AvgRequestTime => "avg_rt"
  | Field.HarakiriCount => "harakiri_count"
  | Field.RespawnCount => "respawn_count"

/-- The field is declared `uint64` (all but `Status`). -/
def Field.isNumeric : Field → Bool
  | Field.Status => false
  | _ => true

/-- All fields, in declaration order. -/
def allFields : List Field :=
  [Field.Requests, Field.Status, Field.Rss, Field.Vsz, Field.Tx, Field.AvgRequestTime,
    Field.HarakiriCount, Field.RespawnCount]

/-- Modelled from the spec: the folding under which `encoding/json` compares an
object key with a field tag. The spec calls a key recognized when it names a
field; the library compares without regard to case: ASCII letters fold to
upper case, and so do the two other code points whose case fold is an ASCII
letter (U+017F folds to S, U+212A to K). -/
def foldChar (c : Char) : Char :=
  if c = Char.ofNat 0x17F then 'S' else if c = Char.ofNat 0x212A then 'K' else c.toUpper

/-- Modelled from the spec: the object key `key` is recognized as the field
tagged `name`. -/
def keyMatches (key name : String) : Bool :=
  key.data.map foldChar = name.data.map foldChar

/-- Modelled from the spec: the field of `UWSGIWorker` an object key is
recognized as, if any ("unrecognized JSON keys are ignored", §3). -/
def fieldFor (key : String) : Option Field :=
  allFields.find? (fun f => keyMatches key f.tag)

/-- Modelled from the spec: the decoder keeps the first type mismatch it meets
and reports it when the document has been read. -/
def saveError (saved new : Option Error) : Option Error :=
  match saved with
  | some e => some e
  | none => new

/-- The error of a type mismatch, `kind` being the JSON type that arrived. -/
def typeError (kind target : String) : Error :=
  "json: cannot unmarshal " ++ kind ++ " into Go value of type " ++ target

/-- Modelled from the spec: decoding a JSON value into a `uint64` field that
holds `old`. Only an unsigned integer literal below `2^64` is accepted; a JSON
string is a type mismatch and is not coerced (§4.2); `null` leaves the field
as it is. -/
def decodeUint64 (old : Nat) : JSON → Nat × Option Error
  | JSON.nat n => if n < 2 ^ 64 then (n, none) else (old, some (typeError "number" "uint64"))
  | JSON.null => (old, none)
  | JSON.number _ => (old, some (typeError "number" "uint64"))
  | JSON.str _ => (old, some (typeError "string" "uint64"))
  | JSON.bool _ => (old, some (typeError "bool" "uint64"))
  | JSON.arr _ => (old, some (typeError "array" "uint64"))
  | JSON.obj _ => (old, some (typeError "object" "uint64"))

/-- Modelled from the spec: decoding a JSON value into a `string` field that
holds `old`. -/
def decodeString (old : String) : JSON → String × Option Error
  | JSON.str s => (s, none)
  | JSON.null => (old, none)
  | JSON.nat _ => (old, some (typeError "number" "string"))
  | JSON.number _ => (old, some (typeError "number" "string"))
  | JSON.bool _ => (old, some (typeError "bool" "string"))
  | JSON.arr _ => (old, some (typeError "array" "string"))
  | JSON.obj _ => (old, some (typeError "object" "string"))

/-- Modelled from the spec: decoding a JSON value into one field of a worker
record. -/
def decodeField (w : UWSGIWorker) (f : Field) (v : JSON) : UWSGIWorker × Option Error :=
  match f with
  | Field.Requests => ({ w with Requests := (decodeUint64 w.Requests v).1 },
      (decodeUint64 w.Requests v).2)
  | Field.Status => ({ w with Status := (decodeString w.Status v).1 },
      (decodeString w.Status v).2)
  | Field.Rss => ({ w with Rss := (decodeUint64 w.Rss v).1 }, (decodeUint64 w.Rss v).2)
  | Field.Vsz => ({ w with Vsz := (decodeUint64 w.Vsz v).1 }, (decodeUint64 w.Vsz v).2)
  | Field.Tx => ({ w with Tx := (decodeUint64 w.Tx v).1 }, (decodeUint64 w.Tx v).2)
  | Field.AvgRequestTime => ({ w with AvgRequestTime := (decodeUint64 w.AvgRequestTime v).1 },
      (decodeUint64 w.AvgRequestTime v).2)
  | Field.HarakiriCount => ({ w with HarakiriCount := (decodeUint64 w.HarakiriCount v).1 },
      (decodeUint64 w.HarakiriCount v).2)
  | Field.RespawnCount => ({ w with RespawnCount := (decodeUint64 w.RespawnCount v).1 },
      (decodeUint64 w.RespawnCount v).2)

/-- Modelled from the spec: one member of a worker object: decoded into its
field when the key is recognized, ignored otherwise. -/
def decodeWorkerMember (st : UWSGIWorker × Option Error) (kv : String × JSON) :
    UWSGIWorker × Option Error :=
  match fieldFor kv.1 with
  | none => st
  | some f => ((decodeField st.1 f kv.2).1, saveError st.2 (decodeField st.1 f kv.2).2)

/-- The zero value of `UWSGIWorker`. -/
def zeroWorker : UWSGIWorker :=
  { Requests := 0, Status := "", Rss := 0, Vsz := 0, Tx := 0, AvgRequestTime := 0,
    HarakiriCount := 0, RespawnCount := 0 }

/-- Modelled from the spec: decoding one element of the `workers` array into
the record `old`: an object member by member, `null` not at all, anything else
is a type mismatch. -/
def decodeWorkerValue (old : UWSGIWorker) : JSON → UWSGIWorker × Option Error
  | JSON.obj members => members.foldl decodeWorkerMember (old, none)
  | JSON.null => (old, none)
  | JSON.bool _ => (old, some (typeError "bool" "UWSGIWorker"))
  | JSON.nat _ => (old, some (typeError "number" "UWSGIWorker"))
  | JSON.number _ => (old, some (typeError "number" "UWSGIWorker"))
  | JSON.str _ => (old, some (typeError "string" "UWSGIWorker"))
  | JSON.arr _ => (old, some (typeError "array" "UWSGIWorker"))

/-- Modelled from the spec: decoding the elements of a JSON array into a slice
of worker records, in order. An element is decoded into the record the slice
already holds at that index, or into a zero record. -/
def decodeArray : List UWSGIWorker → List JSON → List UWSGIWorker × Option Error
  | _, [] => ([], none)
  | old, e :: es =>
    ((decodeWorkerValue (old.headD zeroWorker) e).1 :: (decodeArray old.tail es).1,
      saveError (decodeWorkerValue (old.headD zeroWorker) e).2 (decodeArray old.tail es).2)

/-- Modelled from the spec: decoding the value of the `workers` member into
the slice `old`; an empty array is valid (§4.2). -/
def decodeWorkersValue (old : List UWSGIWorker) : JSON → List UWSGIWorker × Option Error
  | JSON.arr elems => decodeArray old elems
  | JSON.null => ([], none)
  | JSON.bool _ => (old, some (typeError "bool" "[]UWSGIWorker"))
  | JSON.nat _ => (old, some (typeError "number" "[]UWSGIWorker"))
  | JSON.number _ => (old, some (typeError "number" "[]UWSGIWorker"))
  | JSON.str _ => (old, some (typeError "string" "[]UWSGIWorker"))
  | JSON.obj _ => (old, some (typeError "object" "[]UWSGIWorker"))

/-- Modelled from the spec: one member of the top-level object. -/
def decodeDocumentMember (st : UWSGIWorkers × Option Error) (kv : String × JSON) :
    UWSGIWorkers × Option Error :=
  if keyMatches kv.1 "workers" then
    ({ Workers := (decodeWorkersValue st.1.Workers kv.2).1 },
      saveError st.2 (decodeWorkersValue st.1.Workers kv.2).2)
  else st

/-- Modelled from the spec: decoding a document into a fresh `UWSGIWorkers`
value, with the first type mismatch met. -/
def decodeDocument : JSON → UWSGIWorkers × Option Error
  | JSON.obj members => members.foldl decodeDocumentMember ({ Workers := [] }, none)
  | JSON.null => ({ Workers := [] }, none)
  | JSON.bool _ => ({ Workers := [] }, some (typeError "bool" "UWSGIWorkers"))
  | JSON.nat _ => ({ Workers := [] }, some (typeError "number" "UWSGIWorkers"))
  | JSON.number _ => ({ Workers := [] }, some (typeError "number" "UWSGIWorkers"))
  | JSON.str _ => ({ Workers := [] }, some (typeError "string" "UWSGIWorkers"))
  | JSON.arr _ => ({ Workers := [] }, some (typeError "array" "UWSGIWorkers"))

/-- Modelled from the spec: `json.Decoder.Decode` of package `encoding/json`,
which is not under src/, applied to `&workers` on a stream that carries the
document `doc`. The model follows §4.2 and §6 of the spec and the struct tags
of lines 112-126: keys that name no field are ignored, a field that no member
names keeps its zero value, a value of the wrong JSON type for its field is a
decode error and nothing is coerced. A decode error discards the decoded
value: `FetchMetrics` returns as soon as `err != nil`. -/
def DecodeWorkers (doc : JSON) : Except Error UWSGIWorkers :=
  match (decodeDocument doc).2 with
  | some e => Except.error e
  | none => Except.ok (decodeDocument doc).1

/-- A worker object gives some `uint64` field as a JSON string. -/
def StringForNumber (members : List (String × JSON)) : Prop :=
  ∃ kv ∈ members, ∃ f : Field, fieldFor kv.1 = some f ∧ f.isNumeric = true ∧
    ∃ s : String, kv.2 = JSON.str s

/-- Some worker object of the snapshot document gives a `uint64` field as a
JSON string. -/
def HasStringForNumber : JSON → Prop
  | JSON.obj members =>
    ∃ kv ∈ members, keyMatches kv.1 "workers" = true ∧ ∃ elems : List JSON,
      kv.2 = JSON.arr elems ∧ ∃ e ∈ elems, ∃ wm, e = JSON.obj wm ∧ StringForNumber wm
  | _ => False

/-- The value has the documented type of the field: an unsigned integer
literal below `2^64` for a `uint64` field, a string for `status`. -/
def wellTyped (f : Field) : JSON → Bool
  | JSON.nat n => f.isNumeric && decide (n < 2 ^ 64)
  | JSON.str _ => !f.isNumeric
  | _ => false

/-- Every recognized member of the worker object has the documented type. -/
def WellTypedWorker (members : List (String × JSON)) : Prop :=
  ∀ kv ∈ members, (fieldFor kv.1).all (fun f => wellTyped f kv.2) = true

/-- The worker object has no member for the field `f`. -/
def Omits (f : Field) (members : List (String × JSON)) : Prop :=
  ∀ kv ∈ members, fieldFor kv.1 ≠ some f

instance (f : Field) (members : List (String × JSON)) : Decidable (Omits f members) := by
  unfold Omits; infer_instance

/-- A worker record decoded from the array element `e` has the counters that
`e` omits at 0, and adds `0.0` to their totals. -/
def omittedAreZero (e : JSON) (w : UWSGIWorker) : Prop :=
  ∀ wm, e = JSON.obj wm →
    (Omits Field.HarakiriCount wm → w.HarakiriCount = 0 ∧ float64 w.HarakiriCount = F64.fin 0) ∧
    (Omits Field.RespawnCount wm → w.RespawnCount = 0 ∧ float64 w.RespawnCount = F64.fin 0)

/-- The environment `base` with the JSON decoder on streams that `parse` reads
as documents; a stream that is no JSON document is a syntax error. -/
def withJSONDecoder (base : Env) (parse : String → Option JSON) : Env :=
  { base with
    Decode := fun stream =>
      match parse stream with
      | some doc => DecodeWorkers doc
      | none => Except.error "invalid character" }

/-- An endpoint whose every stream carries the document `doc`. -/
def documentEnv (doc : JSON) : Env :=
  withJSONDecoder emptySnapshotEnv (fun _ => some doc)

/-- A snapshot with one worker whose `requests` is the JSON string "5". -/
def stringRequestsDoc : JSON :=
  JSON.obj [("workers", JSON.arr [JSON.obj [("requests", JSON.str "5"),
    ("status", JSON.str "idle")]])]

/-- A worker object that has neither `harakiri_count` nor `respawn_count`, and
a member (`pid`) that names no field. -/
def noCountersWorker : List (String × JSON) :=
  [("pid", JSON.nat 31759), ("requests", JSON.nat 7), ("status", JSON.str "busy"),
    ("rss", JSON.nat 100), ("vsz", JSON.nat 200), ("tx", JSON.nat 3), ("avg_rt", JSON.nat 12)]

/-- A snapshot with that one worker. -/
def noCountersDoc : JSON :=
  JSON.obj ([] ++ ("workers", JSON.arr [JSON.obj noCountersWorker]) :: [])

/-- Adding `0.0` leaves the value as it is: true of every `float64`, that is of
every value the rounding produces. -/
def Stable (a : F64) : Prop := fadd a (F64.fin 0) = a

/-- A worker that is idle and reports the average request time `avg`. -/
def avgWorker (avg : Nat) : UWSGIWorker :=
  { Requests := 0, Status := "idle", Rss := 0, Vsz := 0, Tx := 0, AvgRequestTime := avg,
    HarakiriCount := 0, RespawnCount := 0 }

/-- Three workers whose average request times are `2^53`, 1 and 1. -/
def bigAvg : List UWSGIWorker :=
  [avgWorker 9007199254740992, avgWorker 1, avgWorker 1]

/-- Three workers whose average request times are 1, 0 and 0. -/
def thirdAvg : List UWSGIWorker := [avgWorker 1, avgWorker 0, avgWorker 0]

/-- The six totals other than `avg_rt`: the metric key and the field it
accumulates (lines 176-179, 181, 182). -/
def totalFields : List (String × (UWSGIWorker → Nat)) :=
  [("requests", UWSGIWorker.Requests), ("rss", UWSGIWorker.Rss), ("vsz", UWSGIWorker.Vsz),
    ("tx", UWSGIWorker.Tx), ("harakiri_count", UWSGIWorker.HarakiriCount),
    ("respawn_count", UWSGIWorker.RespawnCount)]

/-! ## Exactness of `float64` on integers up to `2^53` -/

theorem ulpShiftAux_le (fuel : Nat) : ∀ (k n : Nat), n < 2 ^ 53 →
    ulpShiftAux fuel (n * 2 ^ k) ≤ k := by
  induction fuel with
  | zero => intro k n _; simp [ulpShiftAux]
  | succ fuel ih =>
    intro k n hn
    unfold ulpShiftAux
    split
    · exact Nat.zero_le _
    · rename_i hge
      cases k with
      | zero => simp at hge; omega
      | succ j =>
        have hhalf : n * 2 ^ (j + 1) / 2 = n * 2 ^ j := by
          rw [pow_succ, ← Nat.mul_assoc]
          exact Nat.mul_div_cancel _ (by decide)
        rw [hhalf]
        exact Nat.succ_le_succ (ih j n hn)

theorem roundTiesEven_mul (m d : Nat) (hd : 0 < d) : roundTiesEven (m * d) d = m := by
  unfold roundTiesEven
  simp [Nat.mul_div_cancel _ hd, hd]

theorem roundFrac_nat_lt (n : Nat) (hn : n < 2 ^ 53) : roundFrac n 1 = F64.fin n := by
  unfold roundFrac
  dsimp only
  have hs : ulpShift (n * 2 ^ 1074 / 1) ≤ 1074 := by
    rw [Nat.div_one]
    exact ulpShiftAux_le _ 1074 n hn
  generalize ulpShift (n * 2 ^ 1074 / 1) = s at hs
  obtain ⟨t, ht⟩ : ∃ t, 1074 = t + s := ⟨1074 - s, by omega⟩
  have hsplit : n * 2 ^ 1074 = n * 2 ^ t * (1 * 2 ^ s) := by
    rw [ht, pow_add, Nat.one_mul, Nat.mul_assoc]
  have hround : roundTiesEven (n * 2 ^ 1074) (1 * 2 ^ s) * 2 ^ s = n * 2 ^ 1074 := by
    rw [hsplit, roundTiesEven_mul _ _ (by positivity)]
    simp
  simp only [hround]
  have hlt : n * 2 ^ 1074 < 2 ^ 2098 := by
    calc n * 2 ^ 1074 < 2 ^ 53 * 2 ^ 1074 := Nat.mul_lt_mul_of_pos_right hn (by positivity)
      _ = 2 ^ (53 + 1074) := (pow_add 2 53 1074).symm
      _ ≤ 2 ^ 2098 := Nat.pow_le_pow_right (Nat.le_succ 1) (Nat.le_of_lt_succ (by decide))
  rw [if_pos hlt]
  refine congrArg F64.fin ?_
  rw [Rat.mkRat_eq_div]
  push_cast
  exact mul_div_cancel_right₀ _ (pow_ne_zero _ (by norm_num))

/-- Known values of IEEE 754 binary64 arithmetic, as a check of the rounding
model: `2^53 + 1` rounds to `2^53` and `2^53 + 3` to `2^53 + 4` (ties to
even), `2^64 - 1` rounds to `2^64`, and `1 / 3` is `0x3FD5555555555555`. -/
theorem float64_known_values :
    float64 9007199254740993 = F64.fin 9007199254740992 ∧
    float64 9007199254740995 = F64.fin 9007199254740996 ∧
    float64 18446744073709551615 = F64.fin 18446744073709551616 ∧
    fdiv (float64 1) (float64 3) = F64.fin (6004799503160661 / 18014398509481984) ∧
    fadd (F64.fin 9007199254740992) (F64.fin 1) = F64.fin 9007199254740992 := by
  decide!

theorem float64_exact (n : Nat) (hn : n ≤ 2 ^ 53) : float64 n = F64.fin n := by
  rcases Nat.lt_or_ge n (2 ^ 53) with h | h
  · exact roundFrac_nat_lt n h
  · have hn2 : n = 2 ^ 53 := Nat.le_antisymm hn h
    subst hn2
    decide!

theorem roundF64_natCast (n : Nat) : roundF64 (n : ℚ) = float64 n := by
  simp [roundF64, float64]

theorem fadd_exact (a b : Nat) (h : a + b ≤ 2 ^ 53) :
    fadd (F64.fin a) (F64.fin b) = F64.fin ((a + b : Nat) : ℚ) := by
  show roundF64 ((a : ℚ) + (b : ℚ)) = _
  rw [← Nat.cast_add, roundF64_natCast, float64_exact _ h]

theorem fsum_nil (f : α → Nat) (acc : F64) : fsum f acc [] = acc := by
  simp only [fsum, List.foldl_nil]

theorem fsum_cons (f : α → Nat) (acc : F64) (x : α) (xs : List α) :
    fsum f acc (x :: xs) = fsum f (fadd acc (float64 (f x))) xs := by
  simp only [fsum, List.foldl_cons]

theorem fsum_exact (f : α → Nat) (xs : List α) : ∀ (c : Nat),
    c + (xs.map f).sum ≤ 2 ^ 53 → fsum f (F64.fin c) xs = F64.fin ((c + (xs.map f).sum : Nat) : ℚ) := by
  induction xs with
  | nil => intro c _; simp [fsum_nil]
  | cons x xs ih =>
    intro c h
    simp only [List.map_cons, List.sum_cons] at h
    have hx : f x ≤ 2 ^ 53 := by omega
    have hstep : fadd (F64.fin c) (float64 (f x)) = F64.fin ((c + f x : Nat) : ℚ) := by
      rw [float64_exact _ hx]
      exact fadd_exact _ _ (by omega)
    rw [fsum_cons, hstep, ih (c + f x) (by omega)]
    simp only [List.map_cons, List.sum_cons, Nat.add_assoc]

/-! ## Pointwise description of the map operations -/

theorem Stat.add_apply (stat : Stat) (k : String) (v : F64) (k' : String) :
    (stat.add k v) k' = if k' = k then some (fadd (stat.get k) v) else stat k' := by
  simp only [Stat.add, Stat.set]

theorem Stat.get_add (stat : Stat) (k : String) (v : F64) (k' : String) :
    (stat.add k v).get k' = if k' = k then fadd (stat.get k) v else stat.get k' := by
  unfold Stat.get
  rw [Stat.add_apply]
  split <;> rfl

theorem countState_apply (stat : Stat) (w : UWSGIWorker) (k : String) :
    countState stat w k =
      if w.Status = k ∧ isState k = true then some (fadd (stat.get k) (F64.fin 1)) else stat k := by
  unfold countState
  by_cases hs : isState w.Status = true
  · rw [if_pos hs, Stat.add_apply]
    by_cases hk : k = w.Status
    · subst hk; simp [hs]
    · have hk2 : ¬ w.Status = k := fun h => hk h.symm
      simp [hk, hk2]
  · rw [if_neg hs]
    have : ¬ (w.Status = k ∧ isState k = true) := by
      rintro ⟨h1, h2⟩
      exact hs (h1 ▸ h2)
    rw [if_neg this]

theorem countState_get (stat : Stat) (w : UWSGIWorker) (k : String) :
    (countState stat w).get k =
      if w.Status = k ∧ isState k = true then fadd (stat.get k) (F64.fin 1) else stat.get k := by
  unfold Stat.get
  rw [countState_apply]
  split <;> rfl

theorem loopBody_other (stat : Stat) (w : UWSGIWorker) (k : String)
    (h1 : k ≠ "respawn_count") (h2 : k ≠ "harakiri_count") (h3 : k ≠ "avg_rt")
    (h4 : k ≠ "tx") (h5 : k ≠ "vsz") (h6 : k ≠ "rss") (h7 : k ≠ "requests") :
    loopBody stat w k = countState stat w k := by
  simp only [loopBody, Stat.add_apply, if_neg h1, if_neg h2, if_neg h3, if_neg h4, if_neg h5,
    if_neg h6, if_neg h7]

theorem loopBody_requests (stat : Stat) (w : UWSGIWorker) :
    loopBody stat w "requests" = some (fadd (stat.get "requests") (float64 w.Requests)) := by
  simp [loopBody, Stat.add_apply, Stat.get_add, countState_get, isState]

theorem loopBody_rss (stat : Stat) (w : UWSGIWorker) :
    loopBody stat w "rss" = some (fadd (stat.get "rss") (float64 w.Rss)) := by
  simp [loopBody, Stat.add_apply, Stat.get_add, countState_get, isState]

theorem loopBody_vsz (stat : Stat) (w : UWSGIWorker) :
    loopBody stat w "vsz" = some (fadd (stat.get "vsz") (float64 w.Vsz)) := by
  simp [loopBody, Stat.add_apply, Stat.get_add, countState_get, isState]

theorem loopBody_tx (stat : Stat) (w : UWSGIWorker) :
    loopBody stat w "tx" = some (fadd (stat.get "tx") (float64 w.Tx)) := by
  simp [loopBody, Stat.add_apply, Stat.get_add, countState_get, isState]

theorem loopBody_avg_rt (stat : Stat) (w : UWSGIWorker) :
    loopBody stat w "avg_rt" = some (fadd (stat.get "avg_rt") (float64 w.AvgRequestTime)) := by
  simp [loopBody, Stat.add_apply, Stat.get_add, countState_get, isState]

theorem loopBody_harakiri_count (stat : Stat) (w : UWSGIWorker) :
    loopBody stat w "harakiri_count" =
      some (fadd (stat.get "harakiri_count") (float64 w.HarakiriCount)) := by
  simp [loopBody, Stat.add_apply, Stat.get_add, countState_get, isState]

theorem loopBody_respawn_count (stat : Stat) (w : UWSGIWorker) :
    loopBody stat w "respawn_count" =
      some (fadd (stat.get "respawn_count") (float64 w.RespawnCount)) := by
  simp [loopBody, Stat.add_apply, Stat.get_add, countState_get, isState]

theorem loopBody_state (stat : Stat) (w : UWSGIWorker) (k : String) (hk : isState k = true) :
    loopBody stat w k =
      if w.Status = k then some (fadd (stat.get k) (F64.fin 1)) else stat k := by
  have hk2 := hk
  simp only [isState, Bool.or_eq_true, decide_eq_true_eq] at hk2
  rw [loopBody_other, countState_apply]
  · simp [hk]
  all_goals (rcases hk2 with ((h | h) | h) | h <;> simp [h])

/-! ## The loop, key by key -/

theorem aggregateLoop_nil (stat : Stat) : aggregateLoop stat [] = stat := by
  simp only [aggregateLoop, List.foldl_nil]

theorem aggregateLoop_cons (stat : Stat) (w : UWSGIWorker) (ws : List UWSGIWorker) :
    aggregateLoop stat (w :: ws) = aggregateLoop (loopBody stat w) ws := by
  simp only [aggregateLoop, List.foldl_cons]

/-- A key that every iteration updates by `stat[k] += float64(f worker)` holds,
after the loop, the left-to-right `float64` sum of that field. -/
theorem aggregateLoop_sum (k : String) (f : UWSGIWorker → Nat)
    (h : ∀ stat w, loopBody stat w k = some (fadd (stat.get k) (float64 (f w)))) :
    ∀ (ws : List UWSGIWorker) (stat : Stat),
      (aggregateLoop stat ws).get k = fsum f (stat.get k) ws ∧
      (ws ≠ [] → aggregateLoop stat ws k = some (fsum f (stat.get k) ws)) := by
  intro ws
  induction ws with
  | nil => intro stat; simp [aggregateLoop_nil, fsum_nil]
  | cons w ws ih =>
    intro stat
    have hget : (loopBody stat w).get k = fadd (stat.get k) (float64 (f w)) := by
      unfold Stat.get
      rw [h]
      rfl
    rw [aggregateLoop_cons, fsum_cons]
    obtain ⟨ih1, ih2⟩ := ih (loopBody stat w)
    rw [hget] at ih1 ih2
    refine ⟨ih1, fun _ => ?_⟩
    cases ws with
    | nil => rw [aggregateLoop_nil, fsum_nil, h]
    | cons w2 ws2 => exact ih2 (List.cons_ne_nil _ _)

/-- A state counter holds, after the loop, its initial value incremented once
for every worker in that state. -/
theorem aggregateLoop_state (k : String) (hk : isState k = true) :
    ∀ (ws : List UWSGIWorker) (stat : Stat) (c : F64), stat k = some c →
      aggregateLoop stat ws k = some (bump^[ws.countP (fun w => w.Status = k)] c) := by
  intro ws
  induction ws with
  | nil => intro stat c hc; simpa [aggregateLoop_nil] using hc
  | cons w ws ih =>
    intro stat c hc
    rw [aggregateLoop_cons]
    have hget : stat.get k = c := by simp [Stat.get, hc]
    by_cases hw : w.Status = k
    · have hstep : loopBody stat w k = some (bump c) := by
        rw [loopBody_state _ _ _ hk, if_pos hw, hget]; rfl
      rw [ih _ _ hstep, List.countP_cons_of_pos _ _ (by simpa using hw),
        Function.iterate_succ_apply]
    · have hstep : loopBody stat w k = some c := by
        rw [loopBody_state _ _ _ hk, if_neg hw, hc]
      rw [ih _ _ hstep, List.countP_cons_of_neg _ _ (by simpa using hw)]

theorem bump_iterate_exact (n : Nat) : ∀ (c : Nat), c + n ≤ 2 ^ 53 →
    bump^[n] (F64.fin c) = F64.fin ((c + n : Nat) : ℚ) := by
  induction n with
  | zero => intro c _; simp
  | succ n ih =>
    intro c h
    have hstep : bump (F64.fin c) = F64.fin ((c + 1 : Nat) : ℚ) := by
      have := fadd_exact c 1 (by omega)
      simpa [bump] using this
    rw [Function.iterate_succ_apply, hstep, ih (c + 1) (by omega),
      show c + 1 + n = c + (n + 1) by omega]

/-- The loop leaves every key other than the eleven metric names alone. -/
theorem aggregateLoop_other (k : String) (h0 : isState k = false)
    (h1 : k ≠ "respawn_count") (h2 : k ≠ "harakiri_count") (h3 : k ≠ "avg_rt")
    (h4 : k ≠ "tx") (h5 : k ≠ "vsz") (h6 : k ≠ "rss") (h7 : k ≠ "requests") :
    ∀ (ws : List UWSGIWorker) (stat : Stat), aggregateLoop stat ws k = stat k := by
  intro ws
  induction ws with
  | nil => intro stat; rw [aggregateLoop_nil]
  | cons w ws ih =>
    intro stat
    rw [aggregateLoop_cons, ih, loopBody_other _ _ _ h1 h2 h3 h4 h5 h6 h7, countState_apply]
    simp [h0]

/-! ## The aggregate, key by key -/

theorem initStat_get (k : String) : initStat.get k = F64.fin 0 := by
  simp only [initStat, Stat.get, Stat.set, Stat.empty]
  split_ifs <;> rfl

theorem initStat_state (k : String) (hk : isState k = true) : initStat k = some (F64.fin 0) := by
  simp only [isState, Bool.or_eq_true, decide_eq_true_eq] at hk
  rcases hk with ((h | h) | h) | h <;> subst h <;> simp [initStat, Stat.set]

theorem aggregate_apply_of_ne (ws : List UWSGIWorker) (k : String) (hk : k ≠ "avg_rt") :
    aggregate ws k = aggregateLoop initStat ws k := by
  unfold aggregate averageStep
  split
  · simp only [Stat.set, if_neg hk]
  · rfl

theorem aggregate_get_of_ne (ws : List UWSGIWorker) (k : String) (hk : k ≠ "avg_rt") :
    (aggregate ws).get k = (aggregateLoop initStat ws).get k := by
  unfold Stat.get
  rw [aggregate_apply_of_ne ws k hk]

theorem aggregate_avg_rt (ws : List UWSGIWorker) :
    aggregate ws "avg_rt" =
      if ws.length > 0 then
        some (fdiv (fsum UWSGIWorker.AvgRequestTime (F64.fin 0) ws) (float64 ws.length))
      else some (F64.fin 0) := by
  have hsum := (aggregateLoop_sum "avg_rt" UWSGIWorker.AvgRequestTime loopBody_avg_rt ws initStat).1
  rw [initStat_get] at hsum
  unfold aggregate averageStep
  split
  · simp only [Stat.set, if_true, hsum]
  · rename_i hlen
    have hnil : ws = [] := List.length_eq_zero.mp (by omega)
    subst hnil
    simp [aggregateLoop_nil, initStat, Stat.set]

theorem fsum_map (f : α → Nat) (xs : List α) : ∀ (acc : F64),
    fsum id acc (xs.map f) = fsum f acc xs := by
  induction xs with
  | nil => intro acc; simp only [List.map_nil, fsum_nil]
  | cons x xs ih => intro acc; simp only [List.map_cons, fsum_cons, ih, id]

/-! ## Claims about the aggregation -/

theorem countP_knownState (ws : List UWSGIWorker) :
    ws.countP (fun w => w.Status = "busy") + ws.countP (fun w => w.Status = "idle") +
      ws.countP (fun w => w.Status = "cheap") + ws.countP (fun w => w.Status = "pause") =
    ws.countP (fun w => knownState w.Status) := by
  induction ws with
  | nil => rfl
  | cons w ws ih =>
    simp only [knownState, Bool.decide_or] at ih ⊢
    simp only [List.countP_cons]
    by_cases h1 : w.Status = "busy"
    · simp [h1]; omega
    · by_cases h2 : w.Status = "idle"
      · simp [h2]; omega
      · by_cases h3 : w.Status = "cheap"
        · simp [h3]; omega
        · by_cases h4 : w.Status = "pause"
          · simp [h4]; omega
          · simp [h1, h2, h3, h4]; omega

theorem aggregateLoop_state_exact (k : String) (hk : isState k = true) (ws : List UWSGIWorker)
    (hlen : ws.length ≤ 2 ^ 53) :
    aggregateLoop initStat ws k = some (F64.fin ((ws.countP (fun w => w.Status = k) : Nat) : ℚ)) := by
  have h := aggregateLoop_state k hk ws initStat (F64.fin 0) (initStat_state k hk)
  have hc : ws.countP (fun w => decide (w.Status = k)) ≤ ws.length := List.countP_le_length _
  have hb := bump_iterate_exact (ws.countP (fun w => w.Status = k)) 0 (by omega)
  rw [Nat.zero_add] at hb
  rw [h, ← hb]
  simp

/-- C1. After the loop over a worker sequence `W` (of at most `2^53` elements,
which every Go slice of worker records satisfies), each of the four state
counters busy, idle, cheap, pause is the number of elements of `W` whose status
is exactly that string, and these four numbers add up to the number of
elements whose status is one of the four. -/
theorem C1_state_counters (W : List UWSGIWorker) (hlen : W.length ≤ 2 ^ 53) :
    aggregateLoop initStat W "busy"
        = some (F64.fin ((W.countP (fun w => w.Status = "busy") : Nat) : ℚ)) ∧
    aggregateLoop initStat W "idle"
        = some (F64.fin ((W.countP (fun w => w.Status = "idle") : Nat) : ℚ)) ∧
    aggregateLoop initStat W "cheap"
        = some (F64.fin ((W.countP (fun w => w.Status = "cheap") : Nat) : ℚ)) ∧
    aggregateLoop initStat W "pause"
        = some (F64.fin ((W.countP (fun w => w.Status = "pause") : Nat) : ℚ)) ∧
    W.countP (fun w => w.Status = "busy") + W.countP (fun w => w.Status = "idle") +
        W.countP (fun w => w.Status = "cheap") + W.countP (fun w => w.Status = "pause")
      = W.countP (fun w => knownState w.Status) :=
  ⟨aggregateLoop_state_exact "busy" (by decide) W hlen,
   aggregateLoop_state_exact "idle" (by decide) W hlen,
   aggregateLoop_state_exact "cheap" (by decide) W hlen,
   aggregateLoop_state_exact "pause" (by decide) W hlen,
   countP_knownState W⟩

/-- C1 at the spec's example sequence: busy = 1, idle = 1, cheap = 0, pause = 0,
two of the three workers being in a listed state. -/
theorem C1_state_counters_witness :
    exampleWorkers.length ≤ 2 ^ 53 ∧
    aggregateLoop initStat exampleWorkers "busy" = some (F64.fin 1) ∧
    aggregateLoop initStat exampleWorkers "idle" = some (F64.fin 1) ∧
    aggregateLoop initStat exampleWorkers "cheap" = some (F64.fin 0) ∧
    aggregateLoop initStat exampleWorkers "pause" = some (F64.fin 0) ∧
    exampleWorkers.countP (fun w => knownState w.Status) = 2 := by
  have h := C1_state_counters exampleWorkers (by decide)
  refine ⟨by decide, ?_, ?_, ?_, ?_, by decide⟩
  · rw [h.1]; decide
  · rw [h.2.1]; decide
  · rw [h.2.2.1]; decide
  · rw [h.2.2.2.1]; decide

theorem fsum_perm_exact (f : UWSGIWorker → Nat) (W W' : List UWSGIWorker) (hperm : W'.Perm W)
    (hex : (W.map f).sum ≤ 2 ^ 53) : fsum f (F64.fin 0) W' = fsum f (F64.fin 0) W := by
  have hsum : (W'.map f).sum = (W.map f).sum := (hperm.map f).sum_eq
  have h0 : F64.fin 0 = F64.fin ((0 : Nat) : ℚ) := by simp
  rw [h0, fsum_exact f W 0 (by omega), fsum_exact f W' 0 (by omega), hsum]

theorem aggregate_sum_perm (k : String) (f : UWSGIWorker → Nat) (hk : k ≠ "avg_rt")
    (h : ∀ stat w, loopBody stat w k = some (fadd (stat.get k) (float64 (f w))))
    (W W' : List UWSGIWorker) (hperm : W'.Perm W) (hne : W ≠ []) (hex : (W.map f).sum ≤ 2 ^ 53) :
    aggregate W' k = aggregate W k := by
  have hne' : W' ≠ [] := fun h0 => hne (by subst h0; exact hperm.symm.eq_nil)
  rw [aggregate_apply_of_ne _ _ hk, aggregate_apply_of_ne _ _ hk,
    (aggregateLoop_sum k f h W initStat).2 hne, (aggregateLoop_sum k f h W' initStat).2 hne',
    initStat_get, fsum_perm_exact f W W' hperm hex]

theorem aggregate_state_perm (k : String) (hk : isState k = true)
    (W W' : List UWSGIWorker) (hperm : W'.Perm W) :
    aggregate W' k = aggregate W k := by
  have hne : k ≠ "avg_rt" := by rintro rfl; simp [isState] at hk
  rw [aggregate_apply_of_ne _ _ hne, aggregate_apply_of_ne _ _ hne,
    aggregateLoop_state k hk W _ _ (initStat_state k hk),
    aggregateLoop_state k hk W' _ _ (initStat_state k hk), hperm.countP_eq]

/-- C2, as amended. When every field total of `W` is at most `2^53` (so that
no `float64` sum is rounded), the metric map computed from any permutation of
`W` equals the one computed from `W`, key by key and value by value. -/
theorem C2_permutation_exact (W W' : List UWSGIWorker) (hperm : W'.Perm W)
    (hex : ExactTotals W) : aggregate W' = aggregate W := by
  obtain ⟨e1, e2, e3, e4, e5, e6, e7⟩ := hex
  by_cases hnil : W = []
  · subst hnil; rw [hperm.eq_nil]
  funext k
  by_cases h1 : k = "respawn_count"
  · subst h1; exact aggregate_sum_perm _ _ (by decide) loopBody_respawn_count W W' hperm hnil e7
  by_cases h2 : k = "harakiri_count"
  · subst h2; exact aggregate_sum_perm _ _ (by decide) loopBody_harakiri_count W W' hperm hnil e6
  by_cases h3 : k = "avg_rt"
  · subst h3
    rw [aggregate_avg_rt, aggregate_avg_rt, hperm.length_eq,
      fsum_perm_exact _ W W' hperm e5]
  by_cases h4 : k = "tx"
  · subst h4; exact aggregate_sum_perm _ _ (by decide) loopBody_tx W W' hperm hnil e4
  by_cases h5 : k = "vsz"
  · subst h5; exact aggregate_sum_perm _ _ (by decide) loopBody_vsz W W' hperm hnil e3
  by_cases h6 : k = "rss"
  · subst h6; exact aggregate_sum_perm _ _ (by decide) loopBody_rss W W' hperm hnil e2
  by_cases h7 : k = "requests"
  · subst h7; exact aggregate_sum_perm _ _ (by decide) loopBody_requests W W' hperm hnil e1
  by_cases h0 : isState k = true
  · exact aggregate_state_perm k h0 W W' hperm
  · rw [aggregate_apply_of_ne _ _ h3, aggregate_apply_of_ne _ _ h3,
      aggregateLoop_other k (by simpa using h0) h1 h2 h3 h4 h5 h6 h7,
      aggregateLoop_other k (by simpa using h0) h1 h2 h3 h4 h5 h6 h7]

/-- C2 as amended, at the spec's example and its reversal: equal maps. -/
theorem C2_permutation_exact_witness :
    exampleWorkers.reverse.Perm exampleWorkers ∧ ExactTotals exampleWorkers ∧
    aggregate exampleWorkers.reverse = aggregate exampleWorkers :=
  ⟨List.reverse_perm _, by decide,
   C2_permutation_exact exampleWorkers exampleWorkers.reverse (List.reverse_perm _) (by decide)⟩

/-- C2 fails as stated: `bigLast` is a permutation of `bigFirst`, yet the
`requests` total is `2^53 + 2` for the one and `2^53` for the other, because
`2^53 + 1` is not a `float64` and the running sum is rounded at each step. -/
theorem C2_permutation_counterexample :
    bigLast.Perm bigFirst ∧
    aggregate bigLast "requests" = some (F64.fin 9007199254740994) ∧
    aggregate bigFirst "requests" = some (F64.fin 9007199254740992) ∧
    aggregate bigLast ≠ aggregate bigFirst := by
  have hl : aggregate bigLast "requests" = some (F64.fin 9007199254740994) := by decide!
  have hf : aggregate bigFirst "requests" = some (F64.fin 9007199254740992) := by decide!
  refine ⟨by decide, hl, hf, fun h => ?_⟩
  have hk := congrFun h "requests"
  rw [hl, hf] at hk
  exact absurd hk (by decide)

theorem fdiv_fin (a b : ℚ) (hb : b ≠ 0) : fdiv (F64.fin a) (F64.fin b) = roundF64 (a / b) := by
  simp only [fdiv, if_neg hb]

theorem aggregate_get_sum (k : String) (f : UWSGIWorker → Nat) (hk : k ≠ "avg_rt")
    (h : ∀ stat w, loopBody stat w k = some (fadd (stat.get k) (float64 (f w))))
    (W : List UWSGIWorker) : (aggregate W).get k = fsum f (F64.fin 0) W := by
  rw [aggregate_get_of_ne _ _ hk, (aggregateLoop_sum k f h W initStat).1, initStat_get]

theorem fsum_exact_zero (f : UWSGIWorker → Nat) (W : List UWSGIWorker)
    (h : (W.map f).sum ≤ 2 ^ 53) : fsum f (F64.fin 0) W = F64.fin (((W.map f).sum : Nat) : ℚ) := by
  have h0 : F64.fin 0 = F64.fin ((0 : Nat) : ℚ) := by simp
  rw [h0, fsum_exact f W 0 (by omega), Nat.zero_add]

theorem aggregate_nil : aggregate [] = initStat := by
  simp only [aggregate, averageStep, aggregateLoop_nil, List.length_nil, gt_iff_lt,
    Nat.lt_irrefl, if_false]

theorem initStat_isSome (k : String) : (initStat k).isSome = true ↔ k ∈ initKeys := by
  simp only [initStat, Stat.set, Stat.empty, initKeys, List.mem_cons, List.mem_singleton,
    List.not_mem_nil, or_false]
  split_ifs <;> simp_all

theorem aggregate_sum_isSome (k : String) (f : UWSGIWorker → Nat) (hk : k ≠ "avg_rt")
    (h : ∀ stat w, loopBody stat w k = some (fadd (stat.get k) (float64 (f w))))
    (W : List UWSGIWorker) (hne : W ≠ []) : (aggregate W k).isSome = true := by
  rw [aggregate_apply_of_ne _ _ hk, (aggregateLoop_sum k f h W initStat).2 hne]
  rfl

/-- The key set of the aggregate, for every worker sequence: the eight keys
set at creation, and the three keys tx, harakiri_count, respawn_count exactly
when the loop ran at least once. -/
theorem aggregate_isSome (W : List UWSGIWorker) (k : String) :
    (aggregate W k).isSome = true ↔ k ∈ initKeys ∨ (W ≠ [] ∧ k ∈ loopOnlyKeys) := by
  by_cases hnil : W = []
  · subst hnil
    rw [aggregate_nil, initStat_isSome]
    simp
  have hsum : ∀ (k : String) (f : UWSGIWorker → Nat), k ≠ "avg_rt" →
      (∀ stat w, loopBody stat w k = some (fadd (stat.get k) (float64 (f w)))) →
      (aggregate W k).isSome = true := fun k f hk h => aggregate_sum_isSome k f hk h W hnil
  by_cases h1 : k = "respawn_count"
  · subst h1; simp [hsum _ _ (by decide) loopBody_respawn_count, loopOnlyKeys, hnil]
  by_cases h2 : k = "harakiri_count"
  · subst h2; simp [hsum _ _ (by decide) loopBody_harakiri_count, loopOnlyKeys, hnil]
  by_cases h3 : k = "avg_rt"
  · subst h3
    have hpos : W.length > 0 := List.length_pos.mpr hnil
    rw [aggregate_avg_rt, if_pos hpos]
    simp [initKeys]
  by_cases h4 : k = "tx"
  · subst h4; simp [hsum _ _ (by decide) loopBody_tx, loopOnlyKeys, hnil]
  by_cases h5 : k = "vsz"
  · subst h5; simp [hsum _ _ (by decide) loopBody_vsz, initKeys]
  by_cases h6 : k = "rss"
  · subst h6; simp [hsum _ _ (by decide) loopBody_rss, initKeys]
  by_cases h7 : k = "requests"
  · subst h7; simp [hsum _ _ (by decide) loopBody_requests, initKeys]
  have hloop : ¬ k ∈ loopOnlyKeys := by simp [loopOnlyKeys, h1, h2, h4]
  by_cases h0 : isState k = true
  · rw [aggregate_apply_of_ne _ _ h3, aggregateLoop_state k h0 W _ _ (initStat_state k h0)]
    have hk := h0
    simp only [isState, Bool.or_eq_true, decide_eq_true_eq] at hk
    rcases hk with ((h | h) | h) | h <;> simp [h, initKeys]
  · rw [aggregate_apply_of_ne _ _ h3,
      aggregateLoop_other k (by simpa using h0) h1 h2 h3 h4 h5 h6 h7, initStat_isSome]
    simp [hloop]

/-- C5, evaluated at the empty worker sequence. A pass over the document
`{"workers":[]}` returns no error and a map in which the eight metrics set at
creation are 0.0, while tx, harakiri_count and respawn_count are absent: the
map is created without them and no iteration of the loop adds them. -/
theorem C5_empty_workers :
    (FetchMetrics emptySnapshotEnv unixPlugin).err = none ∧
    (FetchMetrics emptySnapshotEnv unixPlugin).stat = some (aggregate []) ∧
    (initKeys.map (aggregate [])) = List.replicate 8 (some (F64.fin 0)) ∧
    aggregate [] "tx" = none ∧ aggregate [] "harakiri_count" = none ∧
    aggregate [] "respawn_count" = none :=
  ⟨by decide, rfl, by decide, by decide, by decide, by decide⟩

/-- C6, for every worker sequence. The key set of the aggregate consists of
busy, idle, cheap, pause, requests, rss, vsz, avg_rt, together with tx,
harakiri_count, respawn_count exactly when the sequence is non-empty: for a
non-empty sequence it is the eleven metric names, for the empty sequence the
three keys are missing. No other key is ever present. -/
theorem C6_key_set (W : List UWSGIWorker) (k : String) :
    ((aggregate W k).isSome = true ↔ k ∈ initKeys ∨ (W ≠ [] ∧ k ∈ loopOnlyKeys)) ∧
    (aggregate [] "tx").isSome = false ∧ (aggregate [] "harakiri_count").isSome = false ∧
    (aggregate [] "respawn_count").isSome = false :=
  ⟨aggregate_isSome W k, by decide, by decide, by decide⟩

/-! ## The pass, path by path -/

theorem decodeAndAggregate_error (env : Env) (stream : String) (e : Error)
    (h : env.Decode stream = Except.error e) :
    decodeAndAggregate env initStat stream = (none, some e) := by
  simp only [decodeAndAggregate, h]

theorem decodeAndAggregate_ok (env : Env) (stream : String) (ws : UWSGIWorkers)
    (h : env.Decode stream = Except.ok ws) :
    decodeAndAggregate env initStat stream = (some (aggregate ws.Workers), none) := by
  simp only [decodeAndAggregate, h, aggregate]

theorem FetchMetrics_scheme_error (env : Env) (p : UWSGIVassalPlugin)
    (hu : HasPrefix p.Socket "unix://" = false) (hh : HasPrefix p.Socket "http://" = false) :
    FetchMetrics env p = Pass.mk none (some schemeError) [] := by
  simp [FetchMetrics, hu, hh]

theorem FetchMetrics_dial_error (env : Env) (p : UWSGIVassalPlugin) (e : Error)
    (hu : HasPrefix p.Socket "unix://" = true)
    (hd : env.Dial "unix" (TrimPrefix p.Socket "unix://") = Except.error e) :
    FetchMetrics env p =
      Pass.mk none (some e) [Event.dial "unix" (TrimPrefix p.Socket "unix://") false] := by
  simp [FetchMetrics, hu, hd]

theorem FetchMetrics_dial_ok (env : Env) (p : UWSGIVassalPlugin) (conn : String)
    (hu : HasPrefix p.Socket "unix://" = true)
    (hd : env.Dial "unix" (TrimPrefix p.Socket "unix://") = Except.ok conn) :
    FetchMetrics env p =
      Pass.mk (decodeAndAggregate env initStat conn).1 (decodeAndAggregate env initStat conn).2
        [Event.dial "unix" (TrimPrefix p.Socket "unix://") true, Event.decode,
          Event.connClose] := by
  simp [FetchMetrics, hu, hd]

theorem FetchMetrics_newRequest_error (env : Env) (p : UWSGIVassalPlugin) (e : Error)
    (hu : HasPrefix p.Socket "unix://" = false) (hh : HasPrefix p.Socket "http://" = true)
    (hn : env.NewRequest "GET" p.Socket = Except.error e) :
    FetchMetrics env p = Pass.mk none (some e) [] := by
  simp [FetchMetrics, hu, hh, hn]

theorem FetchMetrics_do_error (env : Env) (p : UWSGIVassalPlugin) (req : Request) (e : Error)
    (hu : HasPrefix p.Socket "unix://" = false) (hh : HasPrefix p.Socket "http://" = true)
    (hn : env.NewRequest "GET" p.Socket = Except.ok req)
    (hd : env.Do (tagged req) = Except.error e) :
    FetchMetrics env p = Pass.mk none (some e) [Event.roundTrip (tagged req) false] := by
  simp [FetchMetrics, hu, hh, hn, hd]

theorem FetchMetrics_do_ok (env : Env) (p : UWSGIVassalPlugin) (req : Request) (resp : Response)
    (hu : HasPrefix p.Socket "unix://" = false) (hh : HasPrefix p.Socket "http://" = true)
    (hn : env.NewRequest "GET" p.Socket = Except.ok req)
    (hd : env.Do (tagged req) = Except.ok resp) :
    FetchMetrics env p =
      Pass.mk (decodeAndAggregate env initStat resp.Body).1
        (decodeAndAggregate env initStat resp.Body).2
        [Event.roundTrip (tagged req) true, Event.decode, Event.bodyClose] := by
  simp [FetchMetrics, hu, hh, hn, hd]

/-- The result of `decodeAndAggregate` is a map without error or an error
without map. -/
theorem decodeAndAggregate_cases (env : Env) (stream : String) :
    (∃ e, env.Decode stream = Except.error e ∧
      decodeAndAggregate env initStat stream = (none, some e)) ∨
    (∃ ws, env.Decode stream = Except.ok ws ∧
      decodeAndAggregate env initStat stream = (some (aggregate ws.Workers), none)) := by
  cases h : env.Decode stream with
  | error e => exact Or.inl ⟨e, rfl, decodeAndAggregate_error env stream e h⟩
  | ok ws => exact Or.inr ⟨ws, rfl, decodeAndAggregate_ok env stream ws h⟩

/-! ## Claims about the pass -/

/-- C7. For every address that begins with neither "unix://" nor "http://",
in every environment, `FetchMetrics` returns the nil map and an error, and its
trace is empty: no dial and no HTTP request was made. -/
theorem C7_unsupported_scheme (env : Env) (p : UWSGIVassalPlugin)
    (hu : HasPrefix p.Socket "unix://" = false) (hh : HasPrefix p.Socket "http://" = false) :
    (FetchMetrics env p).stat = none ∧ (FetchMetrics env p).err = some schemeError ∧
    (FetchMetrics env p).trace = [] := by
  rw [FetchMetrics_scheme_error env p hu hh]
  exact ⟨rfl, rfl, rfl⟩

/-- C7 at the addresses "ftp://host", "https://host" and "", against an
endpoint that would answer any dial or request. -/
theorem C7_unsupported_scheme_witness :
    (HasPrefix "ftp://host" "unix://" = false ∧ HasPrefix "ftp://host" "http://" = false ∧
      (FetchMetrics emptySnapshotEnv ftpPlugin).stat = none ∧
      (FetchMetrics emptySnapshotEnv ftpPlugin).err = some schemeError ∧
      (FetchMetrics emptySnapshotEnv ftpPlugin).trace = []) ∧
    ((FetchMetrics emptySnapshotEnv { ftpPlugin with Socket := "https://host" }).stat = none ∧
      (FetchMetrics emptySnapshotEnv { ftpPlugin with Socket := "https://host" }).trace = []) ∧
    ((FetchMetrics emptySnapshotEnv { ftpPlugin with Socket := "" }).stat = none ∧
      (FetchMetrics emptySnapshotEnv { ftpPlugin with Socket := "" }).trace = []) :=
  ⟨⟨by decide, by decide, C7_unsupported_scheme emptySnapshotEnv ftpPlugin (by decide) (by decide)⟩,
   ⟨(C7_unsupported_scheme emptySnapshotEnv { ftpPlugin with Socket := "https://host" }
      (by decide) (by decide)).1,
    (C7_unsupported_scheme emptySnapshotEnv { ftpPlugin with Socket := "https://host" }
      (by decide) (by decide)).2.2⟩,
   ⟨(C7_unsupported_scheme emptySnapshotEnv { ftpPlugin with Socket := "" }
      (by decide) (by decide)).1,
    (C7_unsupported_scheme emptySnapshotEnv { ftpPlugin with Socket := "" }
      (by decide) (by decide)).2.2⟩⟩

/-- C8 fails as stated: against an endpoint that answers the GET with status
500 and the body `{"workers":[]}`, `FetchMetrics` on an "http://" address
returns a map and no error; the status code is never looked at. -/
theorem C8_status_counterexample :
    HasPrefix httpPlugin.Socket "unix://" = false ∧
    HasPrefix httpPlugin.Socket "http://" = true ∧
    (FetchMetrics status500Env httpPlugin).trace =
      [Event.roundTrip httpRequest true, Event.decode, Event.bodyClose] ∧
    (status500Env.Do httpRequest).toOption.map Response.StatusCode = some 500 ∧
    (FetchMetrics status500Env httpPlugin).err = none ∧
    (FetchMetrics status500Env httpPlugin).stat.isSome = true :=
  ⟨by decide, by decide, by decide, by decide, by decide, by decide⟩

/-- C8, as amended. For an address of the HTTP form: when building the request
or the GET itself fails (a transport failure), `FetchMetrics` returns that
error and the nil map; when the GET yields a response, the result is decided
by decoding its body alone, whatever the status code: a body that decodes gives
the aggregate and no error, a body that does not gives the decode error and
the nil map. -/
theorem C8_http_errors (env : Env) (p : UWSGIVassalPlugin)
    (hu : HasPrefix p.Socket "unix://" = false) (hh : HasPrefix p.Socket "http://" = true) :
    (∀ e, env.NewRequest "GET" p.Socket = Except.error e →
      (FetchMetrics env p).stat = none ∧ (FetchMetrics env p).err = some e) ∧
    (∀ req e, env.NewRequest "GET" p.Socket = Except.ok req →
      env.Do (tagged req) = Except.error e →
      (FetchMetrics env p).stat = none ∧ (FetchMetrics env p).err = some e) ∧
    (∀ req resp ws, env.NewRequest "GET" p.Socket = Except.ok req →
      env.Do (tagged req) = Except.ok resp → env.Decode resp.Body = Except.ok ws →
      (FetchMetrics env p).stat = some (aggregate ws.Workers) ∧ (FetchMetrics env p).err = none) ∧
    (∀ req resp e, env.NewRequest "GET" p.Socket = Except.ok req →
      env.Do (tagged req) = Except.ok resp → env.Decode resp.Body = Except.error e →
      (FetchMetrics env p).stat = none ∧ (FetchMetrics env p).err = some e) := by
  refine ⟨?_, ?_, ?_, ?_⟩
  · intro e hn
    rw [FetchMetrics_newRequest_error env p e hu hh hn]
    exact ⟨rfl, rfl⟩
  · intro req e hn hd
    rw [FetchMetrics_do_error env p req e hu hh hn hd]
    exact ⟨rfl, rfl⟩
  · intro req resp ws hn hd hdec
    rw [FetchMetrics_do_ok env p req resp hu hh hn hd, decodeAndAggregate_ok env _ ws hdec]
    exact ⟨rfl, rfl⟩
  · intro req resp e hn hd hdec
    rw [FetchMetrics_do_ok env p req resp hu hh hn hd, decodeAndAggregate_error env _ e hdec]
    exact ⟨rfl, rfl⟩

/-- C8 as amended, against an unreachable endpoint: the GET fails and its
error is returned with the nil map. -/
theorem C8_http_errors_witness :
    HasPrefix httpPlugin.Socket "unix://" = false ∧
    HasPrefix httpPlugin.Socket "http://" = true ∧
    (FetchMetrics unreachableEnv httpPlugin).stat = none ∧
    (FetchMetrics unreachableEnv httpPlugin).err
      = some "Get: dial tcp: connect: connection refused" :=
  ⟨by decide, by decide,
   (C8_http_errors unreachableEnv httpPlugin (by decide) (by decide)).2.1
     (Request.mk "GET" "http://localhost:9191/" "")
     "Get: dial tcp: connect: connection refused" rfl rfl⟩

/-- Every pass leaves `FetchMetrics` by one of the eight exit paths. -/
theorem FetchMetrics_path (env : Env) (p : UWSGIVassalPlugin) :
    PassPath env p (FetchMetrics env p) := by
  cases hu : HasPrefix p.Socket "unix://" with
  | true =>
    cases hd : env.Dial "unix" (TrimPrefix p.Socket "unix://") with
    | error e =>
      rw [FetchMetrics_dial_error env p e hu hd]
      exact PassPath.dialError e hu hd
    | ok conn =>
      rw [FetchMetrics_dial_ok env p conn hu hd]
      cases hdec : env.Decode conn with
      | error e =>
        rw [decodeAndAggregate_error env conn e hdec]
        exact PassPath.unixDecodeError conn e hu hd hdec
      | ok ws =>
        rw [decodeAndAggregate_ok env conn ws hdec]
        exact PassPath.unixSuccess conn ws hu hd hdec
  | false =>
    cases hh : HasPrefix p.Socket "http://" with
    | false =>
      rw [FetchMetrics_scheme_error env p hu hh]
      exact PassPath.schemeError hu hh
    | true =>
      cases hn : env.NewRequest "GET" p.Socket with
      | error e =>
        rw [FetchMetrics_newRequest_error env p e hu hh hn]
        exact PassPath.newRequestError e hu hh hn
      | ok req =>
        cases hd : env.Do (tagged req) with
        | error e =>
          rw [FetchMetrics_do_error env p req e hu hh hn hd]
          exact PassPath.doError req e hu hh hn hd
        | ok resp =>
          rw [FetchMetrics_do_ok env p req resp hu hh hn hd]
          cases hdec : env.Decode resp.Body with
          | error e =>
            rw [decodeAndAggregate_error env _ e hdec]
            exact PassPath.httpDecodeError req resp e hu hh hn hd hdec
          | ok ws =>
            rw [decodeAndAggregate_ok env _ ws hdec]
            exact PassPath.httpSuccess req resp ws hu hh hn hd hdec

theorem PassPath.all_or_nothing {env : Env} {p : UWSGIVassalPlugin} {r : Pass}
    (h : PassPath env p r) :
    (r.stat.isSome = true ∧ r.err = none) ∨ (r.stat = none ∧ r.err.isSome = true) := by
  cases h <;> simp

theorem PassPath.complete {env : Env} {p : UWSGIVassalPlugin} {r : Pass}
    (h : PassPath env p r) (m : Stat) (hm : r.stat = some m) :
    r.err = none ∧ ∃ stream ws, env.Decode stream = Except.ok ws ∧ m = aggregate ws.Workers := by
  cases h with
  | unixSuccess conn ws hu hd hdec =>
    exact ⟨rfl, conn, ws, hdec, (Option.some.inj hm).symm⟩
  | httpSuccess req resp ws hu hh hn hd hdec =>
    exact ⟨rfl, resp.Body, ws, hdec, (Option.some.inj hm).symm⟩
  | _ => exact absurd hm (by simp)

/-- C9. Every pass is all-or-nothing. For every plugin value and every outcome
of the library calls, `FetchMetrics` returns either a map and no error, or the
nil map and an error. A returned map is the aggregate of a completely decoded
worker sequence. Whenever the scheme check, the dial, the request or the
decode fails, the nil map is returned with that error. -/
theorem C9_all_or_nothing (env : Env) (p : UWSGIVassalPlugin) :
    (((FetchMetrics env p).stat.isSome = true ∧ (FetchMetrics env p).err = none) ∨
      ((FetchMetrics env p).stat = none ∧ (FetchMetrics env p).err.isSome = true)) ∧
    (∀ m, (FetchMetrics env p).stat = some m → (FetchMetrics env p).err = none ∧
      ∃ stream ws, env.Decode stream = Except.ok ws ∧ m = aggregate ws.Workers) ∧
    (HasPrefix p.Socket "unix://" = false → HasPrefix p.Socket "http://" = false →
      (FetchMetrics env p).stat = none ∧ (FetchMetrics env p).err = some schemeError) ∧
    (HasPrefix p.Socket "unix://" = true →
      (∀ e, env.Dial "unix" (TrimPrefix p.Socket "unix://") = Except.error e →
        (FetchMetrics env p).stat = none ∧ (FetchMetrics env p).err = some e) ∧
      (∀ conn e, env.Dial "unix" (TrimPrefix p.Socket "unix://") = Except.ok conn →
        env.Decode conn = Except.error e →
        (FetchMetrics env p).stat = none ∧ (FetchMetrics env p).err = some e)) ∧
    (HasPrefix p.Socket "unix://" = false → HasPrefix p.Socket "http://" = true →
      (∀ e, env.NewRequest "GET" p.Socket = Except.error e →
        (FetchMetrics env p).stat = none ∧ (FetchMetrics env p).err = some e) ∧
      (∀ req e, env.NewRequest "GET" p.Socket = Except.ok req →
        env.Do (tagged req) = Except.error e →
        (FetchMetrics env p).stat = none ∧ (FetchMetrics env p).err = some e) ∧
      (∀ req resp e, env.NewRequest "GET" p.Socket = Except.ok req →
        env.Do (tagged req) = Except.ok resp → env.Decode resp.Body = Except.error e →
        (FetchMetrics env p).stat = none ∧ (FetchMetrics env p).err = some e)) := by
  refine ⟨(FetchMetrics_path env p).all_or_nothing, (FetchMetrics_path env p).complete,
    ?_, ?_, ?_⟩
  · intro hu hh
    rw [FetchMetrics_scheme_error env p hu hh]
    exact ⟨rfl, rfl⟩
  · intro hu
    refine ⟨?_, ?_⟩
    · intro e hd
      rw [FetchMetrics_dial_error env p e hu hd]
      exact ⟨rfl, rfl⟩
    · intro conn e hd hdec
      rw [FetchMetrics_dial_ok env p conn hu hd, decodeAndAggregate_error env _ e hdec]
      exact ⟨rfl, rfl⟩
  · intro hu hh
    refine ⟨?_, ?_, ?_⟩
    · intro e hn
      rw [FetchMetrics_newRequest_error env p e hu hh hn]
      exact ⟨rfl, rfl⟩
    · intro req e hn hd
      rw [FetchMetrics_do_error env p req e hu hh hn hd]
      exact ⟨rfl, rfl⟩
    · intro req resp e hn hd hdec
      rw [FetchMetrics_do_ok env p req resp hu hh hn hd, decodeAndAggregate_error env _ e hdec]
      exact ⟨rfl, rfl⟩

/-- C9 at an endpoint that delivers bytes that do not decode: the dial
succeeds, the decode fails, and the pass returns the nil map with the decode
error. -/
theorem C9_all_or_nothing_witness :
    HasPrefix unixPlugin.Socket "unix://" = true ∧
    (FetchMetrics garbageEnv unixPlugin).stat = none ∧
    (FetchMetrics garbageEnv unixPlugin).err
      = some "invalid character \'o\' in literal null (expecting \'u\')" :=
  ⟨by decide,
   ((C9_all_or_nothing garbageEnv unixPlugin).2.2.2.1 (by decide)).2 "not json"
     "invalid character \'o\' in literal null (expecting \'u\')" rfl rfl⟩

/-- C10. On every exit path of `FetchMetrics`, in every environment: the
connection is closed as many times as a dial succeeded and the response body
as many times as a GET succeeded, at most one of the two was opened and at
most once, and when one was opened its close is the last event of the pass,
after the decode. In particular, when nothing was opened nothing is closed. -/
theorem C10_close_exactly_once (env : Env) (p : UWSGIVassalPlugin) :
    (FetchMetrics env p).trace.count Event.connClose
      = (FetchMetrics env p).trace.countP Event.opensConn ∧
    (FetchMetrics env p).trace.count Event.bodyClose
      = (FetchMetrics env p).trace.countP Event.opensBody ∧
    (FetchMetrics env p).trace.countP Event.opensConn
      + (FetchMetrics env p).trace.countP Event.opensBody ≤ 1 ∧
    ((FetchMetrics env p).trace.countP Event.opensConn = 1 →
      (FetchMetrics env p).trace.getLast? = some Event.connClose) ∧
    ((FetchMetrics env p).trace.countP Event.opensBody = 1 →
      (FetchMetrics env p).trace.getLast? = some Event.bodyClose) := by
  have h := FetchMetrics_path env p
  generalize FetchMetrics env p = r at h ⊢
  cases h <;> simp [List.count_cons, List.countP_cons, Event.opensConn, Event.opensBody]

/-- C10 on a successful pass over a unix socket: one dial, one close, the
close last. -/
theorem C10_close_exactly_once_witness :
    (FetchMetrics emptySnapshotEnv unixPlugin).trace.countP Event.opensConn = 1 ∧
    (FetchMetrics emptySnapshotEnv unixPlugin).trace.count Event.connClose = 1 ∧
    (FetchMetrics emptySnapshotEnv unixPlugin).trace.getLast? = some Event.connClose ∧
    (FetchMetrics unreachableEnv unixPlugin).trace.count Event.connClose = 0 :=
  ⟨by decide,
   (C10_close_exactly_once emptySnapshotEnv unixPlugin).1.trans (by decide),
   (C10_close_exactly_once emptySnapshotEnv unixPlugin).2.2.2.1 (by decide),
   (C10_close_exactly_once unreachableEnv unixPlugin).1.trans (by decide)⟩

/-! ## Claims about the graph schema and the key prefix -/

theorem append_left_cancel_string (s a b : String) (h : s ++ a = s ++ b) : a = b := by
  have h2 := congrArg String.data h
  simp only [String.data_append] at h2
  exact String.ext (List.append_cancel_left h2)

theorem graphKeys_eq (title : String → String) (p : UWSGIVassalPlugin) :
    graphKeys title p = graphSuffixes.map (fun s => p.Prefix ++ s) := by
  simp [graphKeys, GraphDefinition, graphSuffixes]

theorem graphKeys_nodup (title : String → String) (p : UWSGIVassalPlugin) :
    (graphKeys title p).Nodup := by
  rw [graphKeys_eq]
  refine List.Nodup.map ?_ (by decide)
  intro a b h
  exact append_left_cancel_string _ _ _ h

theorem graphNameLists_eq (title : String → String) (p : UWSGIVassalPlugin) :
    graphNameLists title p =
      [["busy", "idle", "cheap", "pause"], ["requests"], ["rss", "vsz"], ["tx"], ["avg_rt"],
        ["harakiri_count", "respawn_count"]] := by
  simp [graphNameLists, GraphDefinition]

theorem graphMetrics_names (title : String → String) (p : UWSGIVassalPlugin) :
    (graphMetrics title p).map Metrics.Name = metricNames := by
  simp [graphMetrics, GraphDefinition, metricNames]

/-- C11. For every plugin value, `GraphDefinition` returns six groupings with
pairwise distinct keys Prefix+".workers", ".req", ".memory", ".network",
".reqtime", ".counter", whose metric name lists are [busy, idle, cheap, pause],
[requests], [rss, vsz], [tx], [avg_rt], [harakiri_count, respawn_count]; two
plugin values with the same Prefix give the same definition, whatever their
Socket and LabelPrefix, and no snapshot enters the computation. -/
theorem C11_six_groupings (title : String → String) (p : UWSGIVassalPlugin) :
    (GraphDefinition title p).map (fun e => (e.1, e.2.Metrics.map Metrics.Name)) =
      [(p.Prefix ++ ".workers", ["busy", "idle", "cheap", "pause"]),
       (p.Prefix ++ ".req", ["requests"]),
       (p.Prefix ++ ".memory", ["rss", "vsz"]),
       (p.Prefix ++ ".network", ["tx"]),
       (p.Prefix ++ ".reqtime", ["avg_rt"]),
       (p.Prefix ++ ".counter", ["harakiri_count", "respawn_count"])] ∧
    (GraphDefinition title p).length = 6 ∧
    (graphKeys title p).Nodup ∧
    (∀ q : UWSGIVassalPlugin, q.Prefix = p.Prefix →
      GraphDefinition title q = GraphDefinition title p) := by
  refine ⟨by simp [GraphDefinition], by simp [GraphDefinition], graphKeys_nodup title p, ?_⟩
  intro q hq
  simp only [GraphDefinition, hq]

/-- C11 at two plugin values that share the prefix "uWSGI" and differ in the
socket address. -/
theorem C11_six_groupings_witness :
    httpPlugin.Prefix = unixPlugin.Prefix ∧ httpPlugin.Socket ≠ unixPlugin.Socket ∧
    GraphDefinition id httpPlugin = GraphDefinition id unixPlugin ∧
    graphKeys id unixPlugin = ["uWSGI.workers", "uWSGI.req", "uWSGI.memory", "uWSGI.network",
      "uWSGI.reqtime", "uWSGI.counter"] :=
  ⟨by decide, by decide, (C11_six_groupings id unixPlugin).2.2.2 httpPlugin (by decide),
    by decide⟩

/-- C12. In the graph definition, for every prefix, the rate flag `Diff` is
true exactly for requests and tx and the flag `Stacked` is true exactly for
busy, idle, cheap, pause; every other metric has the flag false. -/
theorem C12_flags (title : String → String) (p : UWSGIVassalPlugin) :
    (graphMetrics title p).map (fun m => (m.Name, m.Diff, m.Stacked)) =
      [("busy", false, true), ("idle", false, true), ("cheap", false, true),
       ("pause", false, true), ("requests", true, false), ("rss", false, false),
       ("vsz", false, false), ("tx", true, false), ("avg_rt", false, false),
       ("harakiri_count", false, false), ("respawn_count", false, false)] ∧
    (∀ m ∈ graphMetrics title p,
      (m.Diff = true ↔ m.Name ∈ ["requests", "tx"]) ∧
      (m.Stacked = true ↔ m.Name ∈ ["busy", "idle", "cheap", "pause"])) := by
  refine ⟨by simp [graphMetrics, GraphDefinition], ?_⟩
  intro m hm
  simp only [graphMetrics, GraphDefinition, List.flatMap_cons, List.flatMap_nil,
    List.append_nil, List.cons_append, List.nil_append, List.mem_cons, List.mem_singleton,
    List.not_mem_nil, or_false] at hm
  rcases hm with h | h | h | h | h | h | h | h | h | h | h <;> subst h <;> decide

/-- C16. For every prefix, the label of each grouping is `strings.Title` of the
prefix followed by " Workers", " Requests", " Memory", " Network",
" RequestsTime", " Counter" for the keys .workers, .req, .memory, .network,
.reqtime, .counter; changing the stored LabelPrefix (or the Socket) changes
nothing. -/
theorem C16_labels (title : String → String) (p : UWSGIVassalPlugin) :
    (GraphDefinition title p).map (fun e => (e.1, e.2.Label)) =
      [(p.Prefix ++ ".workers", title p.Prefix ++ " Workers"),
       (p.Prefix ++ ".req", title p.Prefix ++ " Requests"),
       (p.Prefix ++ ".memory", title p.Prefix ++ " Memory"),
       (p.Prefix ++ ".network", title p.Prefix ++ " Network"),
       (p.Prefix ++ ".reqtime", title p.Prefix ++ " RequestsTime"),
       (p.Prefix ++ ".counter", title p.Prefix ++ " Counter")] ∧
    (∀ socket labelPrefix : String,
      GraphDefinition title (UWSGIVassalPlugin.mk socket p.Prefix labelPrefix)
        = GraphDefinition title p) := by
  refine ⟨by simp [GraphDefinition], ?_⟩
  intro socket labelPrefix
  simp only [GraphDefinition]

theorem MetricKeyPrefix_eq (p : UWSGIVassalPlugin) :
    MetricKeyPrefix p = (if p.Prefix = "" then "uWSGI" else p.Prefix) := by
  unfold MetricKeyPrefix MetricKeyPrefixBody
  by_cases h : p.Prefix = "" <;> simp [h]

/-- C17. `MetricKeyPrefix` returns "uWSGI" for an empty Prefix and the Prefix
itself otherwise; the result is never empty; the assignment to `p.Prefix`
changes the method's copy of the receiver only, the caller's plugin value is
the same after the call. -/
theorem C17_key_prefix_result (p : UWSGIVassalPlugin) :
    MetricKeyPrefix p = (if p.Prefix = "" then "uWSGI" else p.Prefix) ∧
    MetricKeyPrefix p ≠ "" ∧
    (callMetricKeyPrefix p).1 = MetricKeyPrefix p ∧
    (callMetricKeyPrefix p).2 = p ∧
    (MetricKeyPrefixBody p).2.Prefix = MetricKeyPrefix p := by
  refine ⟨MetricKeyPrefix_eq p, ?_, rfl, rfl, rfl⟩
  rw [MetricKeyPrefix_eq]
  by_cases h : p.Prefix = "" <;> simp [h]

/-- C17 at a plugin value with an empty prefix: the result is "uWSGI" and the
caller still holds the empty prefix. -/
theorem C17_key_prefix_result_witness :
    noPrefixPlugin.Prefix = "" ∧ MetricKeyPrefix noPrefixPlugin = "uWSGI" ∧
    (callMetricKeyPrefix noPrefixPlugin).2 = noPrefixPlugin ∧
    MetricKeyPrefix unixPlugin = "uWSGI" :=
  ⟨rfl, (C17_key_prefix_result noPrefixPlugin).1.trans (by decide),
    (C17_key_prefix_result noPrefixPlugin).2.2.2.1, by decide⟩

/-- C18. For every prefix and every non-empty worker sequence, the metric
names listed across the groupings of `GraphDefinition` are exactly the keys
of the aggregate, and every name is listed once, in one grouping. -/
theorem C18_schema_covers_output (title : String → String) (p : UWSGIVassalPlugin)
    (W : List UWSGIWorker) (hW : W ≠ []) :
    (∀ k, k ∈ (graphMetrics title p).map Metrics.Name ↔ (aggregate W k).isSome = true) ∧
    ((graphMetrics title p).map Metrics.Name).Nodup ∧
    (∀ k ∈ (graphMetrics title p).map Metrics.Name,
      (graphNameLists title p).countP (fun names => k ∈ names) = 1) := by
  rw [graphMetrics_names, graphNameLists_eq]
  refine ⟨?_, by decide, by decide⟩
  intro k
  rw [aggregate_isSome]
  simp only [metricNames, initKeys, loopOnlyKeys, List.mem_cons, List.mem_singleton,
    List.not_mem_nil, or_false, hW, ne_eq, not_false_eq_true, true_and]
  tauto

/-- C18 at the spec's example sequence. -/
theorem C18_schema_covers_output_witness :
    exampleWorkers ≠ [] ∧
    (∀ k, k ∈ (graphMetrics id unixPlugin).map Metrics.Name ↔
      (aggregate exampleWorkers k).isSome = true) :=
  ⟨by decide, (C18_schema_covers_output id unixPlugin exampleWorkers (by decide)).1⟩

/-- C19, evaluated at an empty Prefix. `GraphDefinition` concatenates the
stored Prefix, so its keys are ".workers", ".req", ... and none of them begins
with the "uWSGI" that `MetricKeyPrefix` returns for the same plugin value; for
a non-empty Prefix the two agree. -/
theorem C19_empty_prefix_keys (title : String → String) :
    MetricKeyPrefix noPrefixPlugin = "uWSGI" ∧
    graphKeys title noPrefixPlugin =
      [".workers", ".req", ".memory", ".network", ".reqtime", ".counter"] ∧
    graphKeys title noPrefixPlugin ≠
      graphSuffixes.map (fun s => MetricKeyPrefix noPrefixPlugin ++ s) ∧
    (∀ p : UWSGIVassalPlugin, p.Prefix ≠ "" →
      graphKeys title p = graphSuffixes.map (fun s => MetricKeyPrefix p ++ s)) := by
  have hk : graphKeys title noPrefixPlugin =
      [".workers", ".req", ".memory", ".network", ".reqtime", ".counter"] := by
    rw [graphKeys_eq]; decide
  refine ⟨by decide, hk, ?_, ?_⟩
  · rw [hk]; decide
  · intro p hp
    rw [graphKeys_eq, MetricKeyPrefix_eq, if_neg hp]

/-! ## `avg_rt` is never NaN and never negative -/

theorem ulpShiftAux_pow_le (fuel : Nat) : ∀ fl : Nat, 2 ^ 53 ≤ fl →
    2 ^ (ulpShiftAux fuel fl + 52) ≤ fl := by
  induction fuel with
  | zero =>
    intro fl h
    simp only [ulpShiftAux, Nat.zero_add]
    exact Nat.le_trans (Nat.pow_le_pow_right (by decide) (by decide)) h
  | succ fuel ih =>
    intro fl h
    unfold ulpShiftAux
    rw [if_neg (by omega)]
    by_cases h2 : 2 ^ 53 ≤ fl / 2
    · have := ih (fl / 2) h2
      have h3 : 2 ^ (ulpShiftAux fuel (fl / 2) + 1 + 52) = 2 * 2 ^ (ulpShiftAux fuel (fl / 2) + 52) := by
        rw [show ulpShiftAux fuel (fl / 2) + 1 + 52 = (ulpShiftAux fuel (fl / 2) + 52) + 1 by omega,
          pow_succ, Nat.mul_comm]
      rw [h3]
      omega
    · have h0 : ulpShiftAux fuel (fl / 2) = 0 := by
        cases fuel with
        | zero => rfl
        | succ f => unfold ulpShiftAux; rw [if_pos (by omega)]
      rw [h0]
      exact h

theorem ulpShift_pow_le (N : Nat) (hN : 0 < N) : 2 ^ ulpShift N ≤ N := by
  unfold ulpShift
  rcases Nat.lt_or_ge N (2 ^ 53) with h | h
  · obtain ⟨m, rfl⟩ : ∃ m, N = m + 1 := ⟨N - 1, by omega⟩
    unfold ulpShiftAux
    rw [if_pos h]
    exact hN
  · exact Nat.le_trans (Nat.pow_le_pow_right (by decide) (Nat.le_add_right _ _))
      (ulpShiftAux_pow_le N N h)

theorem roundTiesEven_bounds (N D : Nat) :
    N / D ≤ roundTiesEven N D ∧ roundTiesEven N D ≤ N / D + 1 := by
  unfold roundTiesEven
  dsimp only
  split_ifs <;> omega

theorem roundFrac_ne_nan (a b : Nat) : roundFrac a b ≠ F64.nan := by
  unfold roundFrac
  dsimp only
  split
  · exact fun h => F64.noConfusion h
  · exact fun h => F64.noConfusion h

theorem roundFrac_nonneg (a b : Nat) (q : ℚ) (h : roundFrac a b = F64.fin q) : 0 ≤ q := by
  unfold roundFrac at h
  dsimp only at h
  split at h
  · have hq := F64.fin.inj h
    rw [← hq, Rat.mkRat_eq_div]
    exact div_nonneg (Int.cast_nonneg.mpr (Int.ofNat_nonneg _)) (Nat.cast_nonneg _)
  · exact F64.noConfusion h

/-- The conversion of a positive `int` is a finite positive `float64`. -/
theorem float64_pos (n : Nat) (h0 : 0 < n) (hn : n < 2 ^ 63) :
    ∃ q : ℚ, float64 n = F64.fin q ∧ 0 < q := by
  unfold float64 roundFrac
  dsimp only
  rw [Nat.div_one, Nat.one_mul]
  have hK : 0 < 2 ^ 1074 := Nat.two_pow_pos _
  have hN : 0 < n * 2 ^ 1074 := Nat.mul_pos h0 hK
  have hs := ulpShift_pow_le (n * 2 ^ 1074) hN
  have hD : 0 < 2 ^ ulpShift (n * 2 ^ 1074) := Nat.two_pow_pos _
  obtain ⟨hlo, hhi⟩ := roundTiesEven_bounds (n * 2 ^ 1074) (2 ^ ulpShift (n * 2 ^ 1074))
  have hbig : 2 * (2 ^ 63 * 2 ^ 1074) ≤ 2 ^ 2098 := by
    rw [← pow_add, ← pow_succ']
    exact Nat.pow_le_pow_right (by decide) (by decide)
  generalize 2 ^ 2098 = B at hbig ⊢
  generalize 2 ^ 1074 = K at *
  generalize ulpShift (n * K) = s at *
  generalize 2 ^ s = D at *
  generalize hr : roundTiesEven (n * K) D = r at *
  have hdiv : 1 ≤ n * K / D := (Nat.le_div_iff_mul_le hD).mpr (by omega)
  have hmul : n * K / D * D ≤ n * K := Nat.div_mul_le_self _ _
  have hrD : r * D ≤ (n * K / D + 1) * D := Nat.mul_le_mul_right D hhi
  have hrD2 : 1 * D ≤ r * D := Nat.mul_le_mul_right D (by omega)
  have hnK : n * K < 2 ^ 63 * K := Nat.mul_lt_mul_of_pos_right hn hK
  have hlt : r * D < B := by
    rw [Nat.add_mul] at hrD
    omega
  rw [if_pos hlt]
  refine ⟨_, rfl, ?_⟩
  rw [Rat.mkRat_eq_div]
  have : 0 < r * D := by omega
  have h1 : (0 : ℚ) < ((r * D : Nat) : ℤ) := by exact_mod_cast this
  have h2 : (0 : ℚ) < ((K : Nat) : ℚ) := by exact_mod_cast hK
  push_cast at h1 ⊢
  exact div_pos h1 h2

theorem fadd_ne_nan (a b : F64) (ha : a ≠ F64.nan) (hb : b ≠ F64.nan) : fadd a b ≠ F64.nan := by
  cases a <;> cases b <;> simp_all [fadd, roundF64, roundFrac_ne_nan]

theorem fsum_ne_nan (f : α → Nat) (xs : List α) : ∀ acc : F64, acc ≠ F64.nan →
    fsum f acc xs ≠ F64.nan := by
  induction xs with
  | nil => intro acc h; rwa [fsum_nil]
  | cons x xs ih =>
    intro acc h
    rw [fsum_cons]
    exact ih _ (fadd_ne_nan _ _ h (roundFrac_ne_nan _ _))

theorem fdiv_fin_pos (a : F64) (q : ℚ) (ha : a ≠ F64.nan) (hq : 0 < q) :
    fdiv a (F64.fin q) ≠ F64.nan ∧ ∀ r : ℚ, fdiv a (F64.fin q) = F64.fin r → 0 ≤ r := by
  cases a with
  | fin x =>
    rw [fdiv_fin _ _ (ne_of_gt hq)]
    exact ⟨roundFrac_ne_nan _ _, fun r h => roundFrac_nonneg _ _ r h⟩
  | inf => exact ⟨by simp [fdiv], fun r h => by simp [fdiv] at h⟩
  | nan => exact absurd rfl ha

/-- C15. For every worker sequence whose length is a Go `int` (below `2^63`),
the `avg_rt` entry of the aggregate is present, is not NaN and is not
negative; for the empty sequence the division is skipped and the entry is 0. -/
theorem C15_avg_rt_not_nan (W : List UWSGIWorker) (hlen : W.length < 2 ^ 63) :
    ∃ v : F64, aggregate W "avg_rt" = some v ∧ v ≠ F64.nan ∧
      (∀ q : ℚ, v = F64.fin q → 0 ≤ q) ∧ (W = [] → v = F64.fin 0) := by
  rw [aggregate_avg_rt]
  by_cases hpos : W.length > 0
  · rw [if_pos hpos]
    obtain ⟨q, hq, hq0⟩ := float64_pos W.length hpos hlen
    rw [hq]
    have hs : fsum UWSGIWorker.AvgRequestTime (F64.fin 0) W ≠ F64.nan :=
      fsum_ne_nan _ W _ (by simp)
    obtain ⟨h1, h2⟩ := fdiv_fin_pos _ q hs hq0
    refine ⟨_, rfl, h1, h2, ?_⟩
    intro hnil
    subst hnil
    exact absurd hpos (by simp)
  · rw [if_neg hpos]
    exact ⟨_, rfl, by simp, fun q h => by rw [← F64.fin.inj h], fun _ => rfl⟩

/-- C15 at the spec's example (avg_rt = 20) and at the empty sequence
(avg_rt = 0). -/
theorem C15_avg_rt_not_nan_witness :
    exampleWorkers.length < 2 ^ 63 ∧
    (∃ v : F64, aggregate exampleWorkers "avg_rt" = some v ∧ v ≠ F64.nan ∧
      (∀ q : ℚ, v = F64.fin q → 0 ≤ q) ∧ (exampleWorkers = [] → v = F64.fin 0)) ∧
    aggregate exampleWorkers "avg_rt" = some (F64.fin 20) ∧
    aggregate [] "avg_rt" = some (F64.fin 0) :=
  ⟨by decide, C15_avg_rt_not_nan exampleWorkers (by decide), by decide!, by decide!⟩

/-! ## Claims about decoding -/

theorem saveError_isSome_left (saved new : Option Error) (h : saved.isSome = true) :
    (saveError saved new).isSome = true := by
  cases saved with
  | none => exact absurd h (by simp)
  | some e => rfl

theorem saveError_isSome_right (saved new : Option Error) (h : new.isSome = true) :
    (saveError saved new).isSome = true := by
  cases saved with
  | none => exact h
  | some e => rfl

theorem saveError_none (new : Option Error) : saveError none new = new := rfl

theorem decodeField_string_numeric (w : UWSGIWorker) (f : Field) (s : String)
    (hf : f.isNumeric = true) : (decodeField w f (JSON.str s)).2.isSome = true := by
  cases f <;> first | rfl | exact absurd hf (by decide)

theorem decodeWorkerMember_mono (st : UWSGIWorker × Option Error) (kv : String × JSON)
    (h : st.2.isSome = true) : (decodeWorkerMember st kv).2.isSome = true := by
  unfold decodeWorkerMember
  split
  · exact h
  · exact saveError_isSome_left _ _ h

theorem decodeWorkerObject_mono (members : List (String × JSON)) :
    ∀ st : UWSGIWorker × Option Error, st.2.isSome = true →
      (members.foldl decodeWorkerMember st).2.isSome = true := by
  induction members with
  | nil => intro st h; exact h
  | cons kv rest ih =>
    intro st h
    rw [List.foldl_cons]
    exact ih _ (decodeWorkerMember_mono st kv h)

theorem decodeWorkerObject_error (members : List (String × JSON))
    (h : StringForNumber members) :
    ∀ st : UWSGIWorker × Option Error, (members.foldl decodeWorkerMember st).2.isSome = true := by
  induction members with
  | nil =>
    obtain ⟨kv, hkv, _⟩ := h
    exact absurd hkv (List.not_mem_nil _)
  | cons m rest ih =>
    intro st
    rw [List.foldl_cons]
    obtain ⟨kv, hkv, f, hf, hnum, s, hs⟩ := h
    rcases List.mem_cons.mp hkv with heq | hmem
    · subst heq
      refine decodeWorkerObject_mono rest _ ?_
      unfold decodeWorkerMember
      rw [hf, hs]
      exact saveError_isSome_right _ _ (decodeField_string_numeric _ f s hnum)
    · exact ih ⟨kv, hmem, f, hf, hnum, s, hs⟩ _

theorem decodeArray_error (elems : List JSON)
    (h : ∃ e ∈ elems, ∃ wm, e = JSON.obj wm ∧ StringForNumber wm) :
    ∀ old : List UWSGIWorker, (decodeArray old elems).2.isSome = true := by
  induction elems with
  | nil =>
    obtain ⟨e, he, _⟩ := h
    exact absurd he (List.not_mem_nil _)
  | cons x rest ih =>
    intro old
    unfold decodeArray
    obtain ⟨e, he, wm, hwm, hs⟩ := h
    rcases List.mem_cons.mp he with heq | hmem
    · subst heq
      subst hwm
      exact saveError_isSome_left _ _ (decodeWorkerObject_error wm hs _)
    · exact saveError_isSome_right _ _ (ih ⟨e, hmem, wm, hwm, hs⟩ _)

theorem decodeDocumentMember_mono (st : UWSGIWorkers × Option Error) (kv : String × JSON)
    (h : st.2.isSome = true) : (decodeDocumentMember st kv).2.isSome = true := by
  unfold decodeDocumentMember
  split
  · exact saveError_isSome_left _ _ h
  · exact h

theorem decodeDocumentObject_mono (members : List (String × JSON)) :
    ∀ st : UWSGIWorkers × Option Error, st.2.isSome = true →
      (members.foldl decodeDocumentMember st).2.isSome = true := by
  induction members with
  | nil => intro st h; exact h
  | cons kv rest ih =>
    intro st h
    rw [List.foldl_cons]
    exact ih _ (decodeDocumentMember_mono st kv h)

theorem decodeDocument_error (doc : JSON) (h : HasStringForNumber doc) :
    (decodeDocument doc).2.isSome = true := by
  cases doc with
  | obj members =>
    simp only [HasStringForNumber] at h
    simp only [decodeDocument]
    generalize (({ Workers := [] }, none) : UWSGIWorkers × Option Error) = st
    induction members generalizing st with
    | nil =>
      obtain ⟨kv, hkv, _⟩ := h
      exact absurd hkv (List.not_mem_nil _)
    | cons m rest ih =>
      rw [List.foldl_cons]
      obtain ⟨kv, hkv, hkey, elems, hval, hbad⟩ := h
      rcases List.mem_cons.mp hkv with heq | hmem
      · subst heq
        refine decodeDocumentObject_mono rest _ ?_
        unfold decodeDocumentMember
        rw [if_pos hkey, hval]
        exact saveError_isSome_right _ _ (decodeArray_error elems hbad _)
      · exact ih ⟨kv, hmem, hkey, elems, hval, hbad⟩ _
  | null => exact absurd h (by simp [HasStringForNumber])
  | bool b => exact absurd h (by simp [HasStringForNumber])
  | nat n => exact absurd h (by simp [HasStringForNumber])
  | number l => exact absurd h (by simp [HasStringForNumber])
  | str s => exact absurd h (by simp [HasStringForNumber])
  | arr es => exact absurd h (by simp [HasStringForNumber])

theorem DecodeWorkers_error (doc : JSON) (h : HasStringForNumber doc) :
    ∃ e, DecodeWorkers doc = Except.error e := by
  have hs := decodeDocument_error doc h
  unfold DecodeWorkers
  cases hd : (decodeDocument doc).2 with
  | none => rw [hd] at hs; exact absurd hs (by simp)
  | some e => exact ⟨e, rfl⟩

theorem PassPath.decode_fails {env : Env} {p : UWSGIVassalPlugin} {r : Pass}
    (h : PassPath env p r) (hfail : ∀ stream, ∃ e, env.Decode stream = Except.error e) :
    r.stat = none ∧ r.err.isSome = true := by
  cases h with
  | unixSuccess conn ws hu hd hdec =>
    obtain ⟨e, he⟩ := hfail conn
    rw [he] at hdec
    exact absurd hdec (by simp)
  | httpSuccess req resp ws hu hh hn hd hdec =>
    obtain ⟨e, he⟩ := hfail resp.Body
    rw [he] at hdec
    exact absurd hdec (by simp)
  | _ => exact ⟨rfl, rfl⟩

/-- C13. When a snapshot document has a worker object that gives one of the
`uint64` fields (requests, rss, vsz, tx, avg_rt, harakiri_count,
respawn_count) as a JSON string, decoding it fails, and a pass whose stream
carries that document returns the nil map and an error, whatever the other
workers hold: the string is not coerced and no aggregate is returned. -/
theorem C13_string_for_number (doc : JSON) (hdoc : HasStringForNumber doc) :
    (∃ e, DecodeWorkers doc = Except.error e) ∧
    (∀ (env : Env) (p : UWSGIVassalPlugin),
      (∀ stream, env.Decode stream = DecodeWorkers doc) →
      (FetchMetrics env p).stat = none ∧ (FetchMetrics env p).err.isSome = true) := by
  obtain ⟨e, he⟩ := DecodeWorkers_error doc hdoc
  refine ⟨⟨e, he⟩, fun env p henv => ?_⟩
  exact (FetchMetrics_path env p).decode_fails (fun stream => ⟨e, (henv stream).trans he⟩)

/-- C13 at a snapshot whose only worker has `"requests": "5"`. -/
theorem C13_string_for_number_witness :
    HasStringForNumber stringRequestsDoc ∧
    (DecodeWorkers stringRequestsDoc).toOption = none ∧
    (FetchMetrics (documentEnv stringRequestsDoc) unixPlugin).stat = none ∧
    (FetchMetrics (documentEnv stringRequestsDoc) unixPlugin).err.isSome = true := by
  have hdoc : HasStringForNumber stringRequestsDoc :=
    ⟨_, List.mem_singleton.mpr rfl, by decide, _, rfl, _, List.mem_singleton.mpr rfl, _, rfl,
      ⟨("requests", JSON.str "5"), List.mem_cons_self _ _, Field.Requests, by decide, rfl,
        "5", rfl⟩⟩
  exact ⟨hdoc, by decide,
    (C13_string_for_number stringRequestsDoc hdoc).2 (documentEnv stringRequestsDoc) unixPlugin
      (fun _ => rfl)⟩

theorem decodeField_wellTyped (w : UWSGIWorker) (f : Field) (v : JSON)
    (h : wellTyped f v = true) : (decodeField w f v).2 = none := by
  cases v with
  | nat n =>
    simp only [wellTyped, Bool.and_eq_true, decide_eq_true_eq] at h
    cases f <;> simp_all [decodeField, decodeUint64, Field.isNumeric]
  | str s =>
    cases f <;> simp_all [wellTyped, decodeField, decodeString, Field.isNumeric]
  | null => exact absurd h (by simp [wellTyped])
  | bool b => exact absurd h (by simp [wellTyped])
  | number l => exact absurd h (by simp [wellTyped])
  | arr es => exact absurd h (by simp [wellTyped])
  | obj ms => exact absurd h (by simp [wellTyped])

theorem decodeField_keeps_harakiri (w : UWSGIWorker) (f : Field) (v : JSON)
    (hf : f ≠ Field.HarakiriCount) : (decodeField w f v).1.HarakiriCount = w.HarakiriCount := by
  cases f <;> first | rfl | exact absurd rfl hf

theorem decodeField_keeps_respawn (w : UWSGIWorker) (f : Field) (v : JSON)
    (hf : f ≠ Field.RespawnCount) : (decodeField w f v).1.RespawnCount = w.RespawnCount := by
  cases f <;> first | rfl | exact absurd rfl hf

theorem decodeWorkerObject_ok (members : List (String × JSON)) (hwt : WellTypedWorker members) :
    ∀ st : UWSGIWorker × Option Error, st.2 = none →
      (members.foldl decodeWorkerMember st).2 = none := by
  induction members with
  | nil => intro st h; exact h
  | cons kv rest ih =>
    intro st h
    rw [List.foldl_cons]
    refine ih (fun x hx => hwt x (List.mem_cons_of_mem _ hx)) _ ?_
    have hkv := hwt kv (List.mem_cons_self _ _)
    unfold decodeWorkerMember
    cases hf : fieldFor kv.1 with
    | none => exact h
    | some f =>
      rw [hf] at hkv
      simp only [Option.all_some] at hkv
      simp only [h, saveError_none]
      exact decodeField_wellTyped _ f _ hkv

theorem decodeWorkerObject_keeps (members : List (String × JSON)) (g : Field)
    (proj : UWSGIWorker → Nat)
    (hkeep : ∀ (w : UWSGIWorker) (f : Field) (v : JSON), f ≠ g →
      proj (decodeField w f v).1 = proj w)
    (hom : Omits g members) :
    ∀ st : UWSGIWorker × Option Error,
      proj (members.foldl decodeWorkerMember st).1 = proj st.1 := by
  induction members with
  | nil => intro st; rfl
  | cons kv rest ih =>
    intro st
    rw [List.foldl_cons, ih (fun x hx => hom x (List.mem_cons_of_mem _ hx))]
    have hkv := hom kv (List.mem_cons_self _ _)
    unfold decodeWorkerMember
    cases hf : fieldFor kv.1 with
    | none => rfl
    | some f =>
      rw [hf] at hkv
      exact hkeep _ f _ (fun h => hkv (by rw [h]))

theorem float64_zero : float64 0 = F64.fin 0 := by
  have h := float64_exact 0 (Nat.zero_le _)
  simpa using h

theorem decodeArray_ok (elems : List JSON)
    (hwt : ∀ e ∈ elems, ∃ wm, e = JSON.obj wm ∧ WellTypedWorker wm) :
    (decodeArray [] elems).2 = none ∧
    List.Forall₂ omittedAreZero elems (decodeArray [] elems).1 := by
  induction elems with
  | nil => exact ⟨rfl, List.Forall₂.nil⟩
  | cons x rest ih =>
    obtain ⟨ih1, ih2⟩ := ih (fun e he => hwt e (List.mem_cons_of_mem _ he))
    obtain ⟨wm, hx, hw⟩ := hwt x (List.mem_cons_self _ _)
    subst hx
    unfold decodeArray
    simp only [List.headD_nil, List.tail_nil]
    have herr : (decodeWorkerValue zeroWorker (JSON.obj wm)).2 = none :=
      decodeWorkerObject_ok wm hw _ rfl
    refine ⟨by rw [herr, ih1]; rfl, List.Forall₂.cons ?_ ih2⟩
    intro wm2 h2
    have hwm : wm2 = wm := by injection h2 with h3; exact h3.symm
    subst hwm
    refine ⟨fun hom => ?_, fun hom => ?_⟩
    · have h0 : (decodeWorkerValue zeroWorker (JSON.obj wm2)).1.HarakiriCount = 0 :=
        decodeWorkerObject_keeps wm2 Field.HarakiriCount UWSGIWorker.HarakiriCount
          decodeField_keeps_harakiri hom _
      exact ⟨h0, by rw [h0]; exact float64_zero⟩
    · have h0 : (decodeWorkerValue zeroWorker (JSON.obj wm2)).1.RespawnCount = 0 :=
        decodeWorkerObject_keeps wm2 Field.RespawnCount UWSGIWorker.RespawnCount
          decodeField_keeps_respawn hom _
      exact ⟨h0, by rw [h0]; exact float64_zero⟩

theorem decodeDocumentObject_skip (members : List (String × JSON))
    (h : ∀ kv ∈ members, keyMatches kv.1 "workers" = false) :
    ∀ st : UWSGIWorkers × Option Error, members.foldl decodeDocumentMember st = st := by
  induction members with
  | nil => intro st; rfl
  | cons kv rest ih =>
    intro st
    rw [List.foldl_cons]
    have hkv := h kv (List.mem_cons_self _ _)
    have hstep : decodeDocumentMember st kv = st := by
      unfold decodeDocumentMember
      rw [if_neg (by simp [hkv])]
    rw [hstep]
    exact ih (fun x hx => h x (List.mem_cons_of_mem _ hx)) st

/-! ## Adding `0.0` -/

theorem ulpShiftAux_div_lt (fuel : Nat) : ∀ fl : Nat, fl < 2 ^ (53 + fuel) →
    fl / 2 ^ ulpShiftAux fuel fl < 2 ^ 53 := by
  induction fuel with
  | zero =>
    intro fl h
    simpa [ulpShiftAux] using h
  | succ fuel ih =>
    intro fl h
    unfold ulpShiftAux
    split
    · rename_i hlt
      simpa using hlt
    · have h2 : fl / 2 < 2 ^ (53 + fuel) := by
        have : 2 ^ (53 + (fuel + 1)) = 2 * 2 ^ (53 + fuel) := by
          rw [← Nat.add_assoc, pow_succ, Nat.mul_comm]
        omega
      have := ih (fl / 2) h2
      rw [pow_succ, Nat.mul_comm, ← Nat.div_div_eq_div_mul]
      exact this

theorem ulpShift_div_lt (fl : Nat) : fl / 2 ^ ulpShift fl < 2 ^ 53 := by
  unfold ulpShift
  refine ulpShiftAux_div_lt fl fl ?_
  calc fl < 2 ^ fl := Nat.lt_two_pow fl
    _ ≤ 2 ^ (53 + fl) := Nat.pow_le_pow_right (by decide) (Nat.le_add_left _ _)

theorem ulpShift_dvd (m s : Nat) (hm : m ≤ 2 ^ 53) : 2 ^ ulpShift (m * 2 ^ s) ∣ m * 2 ^ s := by
  rcases Nat.lt_or_ge m (2 ^ 53) with h | h
  · have hle : ulpShift (m * 2 ^ s) ≤ s := ulpShiftAux_le _ s m h
    exact Dvd.dvd.mul_left (Nat.pow_dvd_pow 2 hle) m
  · have hm2 : m = 2 ^ 53 := Nat.le_antisymm hm h
    have hr : m * 2 ^ s = 2 ^ 52 * 2 ^ (s + 1) := by
      rw [hm2]
      ring
    rw [hr]
    have hle : ulpShift (2 ^ 52 * 2 ^ (s + 1)) ≤ s + 1 :=
      ulpShiftAux_le _ (s + 1) (2 ^ 52) (by decide)
    exact Dvd.dvd.mul_left (Nat.pow_dvd_pow 2 hle) _

/-- The significand the rounding produces has at most 53 bits (or is `2^53`). -/
theorem roundTiesEven_le (N den : Nat) :
    roundTiesEven N (den * 2 ^ ulpShift (N / den)) ≤ 2 ^ 53 := by
  have h1 := (roundTiesEven_bounds N (den * 2 ^ ulpShift (N / den))).2
  have h2 := ulpShift_div_lt (N / den)
  rw [Nat.div_div_eq_div_mul] at h2
  omega

/-- A value of the form `r * 2^-1074` whose `r` is a multiple of its own unit
in the last place is a fixed point of the rounding. -/
theorem roundF64_fixed (r : Nat) (hdvd : 2 ^ ulpShift r ∣ r) (hlt : r < 2 ^ 2098) :
    roundF64 (mkRat r (2 ^ 1074)) = F64.fin (mkRat r (2 ^ 1074)) := by
  generalize hq : mkRat (r : ℤ) (2 ^ 1074) = q
  have hK : (0 : ℚ) < ((2 ^ 1074 : Nat) : ℚ) := by exact_mod_cast Nat.two_pow_pos 1074
  have hqr : q = (r : ℚ) / ((2 ^ 1074 : Nat) : ℚ) := by
    rw [← hq, Rat.mkRat_eq_div, Int.cast_natCast]
  have hq0 : 0 ≤ q := by rw [hqr]; exact div_nonneg (Nat.cast_nonneg _) (le_of_lt hK)
  have hnum : 0 ≤ q.num := Rat.num_nonneg.mpr hq0
  have hden : 0 < q.den := q.den_pos
  have hcross : q.num.toNat * 2 ^ 1074 = r * q.den := by
    have h1 : (q.num : ℚ) / (q.den : ℚ) = (r : ℚ) / ((2 ^ 1074 : Nat) : ℚ) := by
      rw [Rat.num_div_den, hqr]
    have hd : (0 : ℚ) < (q.den : ℚ) := by exact_mod_cast hden
    rw [div_eq_div_iff (ne_of_gt hd) (ne_of_gt hK)] at h1
    have h2 : ((q.num.toNat : ℤ) : ℚ) = (q.num : ℚ) := by rw [Int.toNat_of_nonneg hnum]
    rw [← h2] at h1
    exact_mod_cast h1
  unfold roundF64 roundFrac
  dsimp only
  rw [hcross, Nat.mul_div_cancel _ hden]
  obtain ⟨t, ht⟩ := hdvd
  have hround : roundTiesEven (r * q.den) (q.den * 2 ^ ulpShift r) * 2 ^ ulpShift r = r := by
    have h3 : r * q.den = t * (q.den * 2 ^ ulpShift r) := by
      conv_lhs => rw [ht]
      ring
    rw [h3, roundTiesEven_mul _ _ (Nat.mul_pos hden (Nat.two_pow_pos _))]
    conv_rhs => rw [ht]
    ring
  rw [hround, if_pos hlt, hq]

theorem roundFrac_stable (a b : Nat) (q : ℚ) (h : roundFrac a b = F64.fin q) :
    roundF64 q = F64.fin q := by
  unfold roundFrac at h
  dsimp only at h
  split at h
  · rename_i hlt
    have hq := F64.fin.inj h
    rw [← hq]
    exact roundF64_fixed _ (ulpShift_dvd _ _ (roundTiesEven_le _ _)) hlt
  · exact F64.noConfusion h

theorem stable_roundFrac (a b : Nat) : Stable (roundFrac a b) := by
  unfold Stable
  cases h : roundFrac a b with
  | fin q =>
    simp only [fadd, add_zero]
    exact roundFrac_stable a b q h
  | inf => rfl
  | nan => rfl

theorem stable_fadd (a b : F64) : Stable (fadd a b) := by
  cases a with
  | fin x =>
    cases b with
    | fin y =>
      simp only [fadd, roundF64]
      exact stable_roundFrac _ _
    | inf => rfl
    | nan => rfl
  | inf => cases b <;> rfl
  | nan => cases b <;> rfl

theorem stable_zero : Stable (F64.fin 0) := by
  unfold Stable
  decide!

/-- An element whose field is 0 adds nothing to the `float64` sum of that
field: the sum is the same with the element left out. -/
theorem fsum_eraseIdx (f : α → Nat) : ∀ (xs : List α) (i : Nat) (acc : F64) (x : α),
    Stable acc → xs[i]? = some x → f x = 0 →
    fsum f acc (xs.eraseIdx i) = fsum f acc xs := by
  intro xs
  induction xs with
  | nil => intro i acc x _ hx _; simp at hx
  | cons y ys ih =>
    intro i acc x hacc hx hfx
    cases i with
    | zero =>
      simp only [List.getElem?_cons_zero, Option.some.injEq] at hx
      subst hx
      rw [List.eraseIdx_cons_zero, fsum_cons, hfx, float64_zero, hacc]
    | succ j =>
      simp only [List.getElem?_cons_succ] at hx
      rw [List.eraseIdx_cons_succ, fsum_cons, fsum_cons]
      exact ih j _ x (stable_fadd _ _) hx hfx

/-! ## Claims C3 and C4: the mean and the totals against the exact sums -/

theorem aggregate_avg_rt_mean (W : List UWSGIWorker) :
    aggregate W "avg_rt" = some (meanAvgRt (W.map UWSGIWorker.AvgRequestTime)) := by
  rw [aggregate_avg_rt]
  unfold meanAvgRt
  rw [fsum_map, List.length_map]
  split <;> rfl

/-- C3, as amended. For every worker sequence `W` of at most `2^53` elements
whose `avg_request_time` values sum to at most `2^53`: the `avg_rt` entry of
the aggregate is 0.0 when `W` is empty, and otherwise the exact quotient
`(Σ avg_request_time) / len(W)` rounded to the nearest `float64`; it is an
unweighted mean, the same for any sequence with the same `avg_request_time`
values whatever the requests. -/
theorem C3_avg_rt_rounded (W : List UWSGIWorker) (hlen : W.length ≤ 2 ^ 53)
    (hsum : (W.map UWSGIWorker.AvgRequestTime).sum ≤ 2 ^ 53) :
    (W.length = 0 → aggregate W "avg_rt" = some (F64.fin 0)) ∧
    (0 < W.length → aggregate W "avg_rt" =
      some (roundF64 (((W.map UWSGIWorker.AvgRequestTime).sum : ℚ) / (W.length : ℚ)))) ∧
    (∀ W' : List UWSGIWorker,
      W'.map UWSGIWorker.AvgRequestTime = W.map UWSGIWorker.AvgRequestTime →
      aggregate W' "avg_rt" = aggregate W "avg_rt") := by
  refine ⟨?_, ?_, ?_⟩
  · intro h0
    rw [aggregate_avg_rt, if_neg (by omega)]
  · intro hpos
    have hne : (W.length : ℚ) ≠ 0 := by
      exact_mod_cast (Nat.pos_iff_ne_zero.mp hpos)
    rw [aggregate_avg_rt, if_pos hpos, fsum_exact_zero _ W hsum, float64_exact _ hlen,
      fdiv_fin _ _ hne]
  · intro W' hmap
    rw [aggregate_avg_rt_mean, aggregate_avg_rt_mean, hmap]

/-- C3 as amended, at the spec's example: three workers with avg_request_time
10, 20, 30 give `avg_rt = 60 / 3 = 20.0`. -/
theorem C3_avg_rt_rounded_witness :
    exampleWorkers.length ≤ 2 ^ 53 ∧
    (exampleWorkers.map UWSGIWorker.AvgRequestTime).sum ≤ 2 ^ 53 ∧
    0 < exampleWorkers.length ∧
    (exampleWorkers.map UWSGIWorker.AvgRequestTime).sum = 60 ∧
    aggregate exampleWorkers "avg_rt" = some (roundF64 (60 / 3)) ∧
    roundF64 (60 / 3) = F64.fin 20 := by
  have h := (C3_avg_rt_rounded exampleWorkers (by decide) (by decide)).2.1 (by decide)
  refine ⟨by decide, by decide, by decide, by decide, ?_, by decide!⟩
  rw [h]
  decide!

/-- C3 fails as stated. For avg_request_time 1, 0, 0 the code returns the
`float64` nearest to 1/3, not 1/3. For avg_request_time `2^53`, 1, 1 the
running sum is rounded to `2^53` before the division, and the code returns
`6004799503160661/2`, which is neither the quotient `(2^53 + 2)/3` nor the
`float64` nearest to it, `6004799503160663/2`. -/
theorem C3_avg_rt_counterexample :
    (aggregate thirdAvg "avg_rt"
        = some (F64.fin (6004799503160661 / 18014398509481984)) ∧
      ((thirdAvg.map UWSGIWorker.AvgRequestTime).sum : ℚ) / (thirdAvg.length : ℚ) = 1 / 3 ∧
      aggregate thirdAvg "avg_rt" ≠ some (F64.fin (1 / 3))) ∧
    (aggregate bigAvg "avg_rt" = some (F64.fin (6004799503160661 / 2)) ∧
      ((bigAvg.map UWSGIWorker.AvgRequestTime).sum : ℚ) / (bigAvg.length : ℚ)
        = 9007199254740994 / 3 ∧
      roundF64 (9007199254740994 / 3) = F64.fin (6004799503160663 / 2) ∧
      aggregate bigAvg "avg_rt" ≠ some (F64.fin (9007199254740994 / 3)) ∧
      aggregate bigAvg "avg_rt" ≠ some (roundF64 (9007199254740994 / 3))) := by
  decide!

theorem mem_totalFields (k : String) (f : UWSGIWorker → Nat) (h : (k, f) ∈ totalFields) :
    k ≠ "avg_rt" ∧ ∀ stat w, loopBody stat w k = some (fadd (stat.get k) (float64 (f w))) := by
  simp only [totalFields, List.mem_cons, List.mem_singleton, List.not_mem_nil, or_false,
    Prod.mk.injEq] at h
  rcases h with ⟨rfl, rfl⟩ | ⟨rfl, rfl⟩ | ⟨rfl, rfl⟩ | ⟨rfl, rfl⟩ | ⟨rfl, rfl⟩ | ⟨rfl, rfl⟩
  · exact ⟨by decide, loopBody_requests⟩
  · exact ⟨by decide, loopBody_rss⟩
  · exact ⟨by decide, loopBody_vsz⟩
  · exact ⟨by decide, loopBody_tx⟩
  · exact ⟨by decide, loopBody_harakiri_count⟩
  · exact ⟨by decide, loopBody_respawn_count⟩

/-- C4, as amended. For every worker sequence `W`, whatever the statuses of
its elements, and each of the totals requests, rss, vsz, tx, harakiri_count,
respawn_count whose field sums to at most `2^53` over `W`: the total read from
the aggregate is the sum of that field over all elements of `W`, and for a
non-empty `W` the key is present with that value. On the spec's example (one
worker in the unlisted state "weird") the aggregate has busy = 1, idle = 1,
cheap = 0, pause = 0, requests = 9, rss = 151, avg_rt = 20.0. -/
theorem C4_totals_exact (W : List UWSGIWorker) (k : String) (f : UWSGIWorker → Nat)
    (hkf : (k, f) ∈ totalFields) (hsum : (W.map f).sum ≤ 2 ^ 53) :
    (aggregate W).get k = F64.fin (((W.map f).sum : Nat) : ℚ) ∧
    (W ≠ [] → aggregate W k = some (F64.fin (((W.map f).sum : Nat) : ℚ))) ∧
    (aggregate exampleWorkers "busy" = some (F64.fin 1) ∧
     aggregate exampleWorkers "idle" = some (F64.fin 1) ∧
     aggregate exampleWorkers "cheap" = some (F64.fin 0) ∧
     aggregate exampleWorkers "pause" = some (F64.fin 0) ∧
     aggregate exampleWorkers "requests" = some (F64.fin 9) ∧
     aggregate exampleWorkers "rss" = some (F64.fin 151) ∧
     aggregate exampleWorkers "avg_rt" = some (F64.fin 20)) := by
  obtain ⟨hk, hstep⟩ := mem_totalFields k f hkf
  refine ⟨?_, ?_, by decide!⟩
  · rw [aggregate_get_sum k f hk hstep W, fsum_exact_zero f W hsum]
  · intro hne
    rw [aggregate_apply_of_ne _ _ hk, (aggregateLoop_sum k f hstep W initStat).2 hne,
      initStat_get, fsum_exact_zero f W hsum]

/-- C4 as amended, at the spec's example: the requests and rss totals count the
worker in state "weird". -/
theorem C4_totals_exact_witness :
    ("requests", UWSGIWorker.Requests) ∈ totalFields ∧
    (exampleWorkers.map UWSGIWorker.Requests).sum ≤ 2 ^ 53 ∧
    (exampleWorkers.map UWSGIWorker.Requests).sum = 9 ∧
    (aggregate exampleWorkers).get "requests"
      = F64.fin (((exampleWorkers.map UWSGIWorker.Requests).sum : Nat) : ℚ) ∧
    (aggregate exampleWorkers).get "rss"
      = F64.fin (((exampleWorkers.map UWSGIWorker.Rss).sum : Nat) : ℚ) :=
  ⟨by simp [totalFields], by decide, by decide,
    (C4_totals_exact exampleWorkers "requests" UWSGIWorker.Requests (by simp [totalFields])
      (by decide)).1,
    (C4_totals_exact exampleWorkers "rss" UWSGIWorker.Rss (by simp [totalFields])
      (by decide)).1⟩

/-- C4 fails as stated: for requests `2^53`, 1, 1 the requests total of the
aggregate is `2^53`, while the sum of the field is `2^53 + 2`. -/
theorem C4_totals_counterexample :
    (aggregate bigFirst).get "requests" = F64.fin 9007199254740992 ∧
    aggregate bigFirst "requests" = some (F64.fin 9007199254740992) ∧
    (bigFirst.map UWSGIWorker.Requests).sum = 9007199254740994 ∧
    (aggregate bigFirst).get "requests"
      ≠ F64.fin (((bigFirst.map UWSGIWorker.Requests).sum : Nat) : ℚ) := by
  decide!

/-! ## Claim C14: omitted counters -/

theorem forall₂_getElem? {R : JSON → UWSGIWorker → Prop} :
    ∀ (es : List JSON) (ws : List UWSGIWorker), List.Forall₂ R es ws →
      ∀ (i : Nat) (e : JSON), es[i]? = some e → ∃ w, ws[i]? = some w ∧ R e w := by
  intro es ws h
  induction h with
  | nil => intro i e he; simp at he
  | cons hr _ ih =>
    intro i e he
    cases i with
    | zero =>
      simp only [List.getElem?_cons_zero, Option.some.injEq] at he
      subst he
      exact ⟨_, by simp, hr⟩
    | succ j =>
      simp only [List.getElem?_cons_succ] at he
      obtain ⟨w, hw, hrw⟩ := ih j e he
      exact ⟨w, by simpa using hw, hrw⟩

/-- A worker whose field is 0 adds nothing to that total of the aggregate. -/
theorem aggregate_get_eraseIdx (k : String) (f : UWSGIWorker → Nat) (hk : k ≠ "avg_rt")
    (h : ∀ stat w, loopBody stat w k = some (fadd (stat.get k) (float64 (f w))))
    (W : List UWSGIWorker) (i : Nat) (w : UWSGIWorker) (hw : W[i]? = some w) (hf : f w = 0) :
    (aggregate (W.eraseIdx i)).get k = (aggregate W).get k := by
  rw [aggregate_get_sum k f hk h, aggregate_get_sum k f hk h]
  exact fsum_eraseIdx f W i _ w stable_zero hw hf

/-- C14. For every snapshot document shaped `{"workers": [...]}` (one member
recognized as `workers`, any other members around it) whose worker objects
give every recognized member with its documented type: decoding succeeds with
one record for each worker object; a pass that reads the document over an
opened unix connection or HTTP response returns the aggregate of these records
and no error; a worker object that omits harakiri_count (respawn_count) decodes
with that field 0 and contributes 0 to the harakiri_count (respawn_count)
total of that aggregate, which is the same as the total over the sequence
without that worker. -/
theorem C14_omitted_counters (before after : List (String × JSON)) (key : String)
    (elems : List JSON) (hkey : keyMatches key "workers" = true)
    (hbefore : ∀ kv ∈ before, keyMatches kv.1 "workers" = false)
    (hafter : ∀ kv ∈ after, keyMatches kv.1 "workers" = false)
    (hwt : ∀ e ∈ elems, ∃ wm, e = JSON.obj wm ∧ WellTypedWorker wm) :
    ∃ ws : UWSGIWorkers,
      DecodeWorkers (JSON.obj (before ++ (key, JSON.arr elems) :: after)) = Except.ok ws ∧
      List.Forall₂ omittedAreZero elems ws.Workers ∧
      (∀ (env : Env) (p : UWSGIVassalPlugin) (conn : String),
        HasPrefix p.Socket "unix://" = true →
        env.Dial "unix" (TrimPrefix p.Socket "unix://") = Except.ok conn →
        env.Decode conn = DecodeWorkers (JSON.obj (before ++ (key, JSON.arr elems) :: after)) →
        (FetchMetrics env p).stat = some (aggregate ws.Workers) ∧
        (FetchMetrics env p).err = none) ∧
      (∀ (env : Env) (p : UWSGIVassalPlugin) (req : Request) (resp : Response),
        HasPrefix p.Socket "unix://" = false → HasPrefix p.Socket "http://" = true →
        env.NewRequest "GET" p.Socket = Except.ok req →
        env.Do (tagged req) = Except.ok resp →
        env.Decode resp.Body
          = DecodeWorkers (JSON.obj (before ++ (key, JSON.arr elems) :: after)) →
        (FetchMetrics env p).stat = some (aggregate ws.Workers) ∧
        (FetchMetrics env p).err = none) ∧
      (∀ (i : Nat) (wm : List (String × JSON)), elems[i]? = some (JSON.obj wm) →
        (Omits Field.HarakiriCount wm →
          (aggregate ws.Workers).get "harakiri_count"
            = (aggregate (ws.Workers.eraseIdx i)).get "harakiri_count") ∧
        (Omits Field.RespawnCount wm →
          (aggregate ws.Workers).get "respawn_count"
            = (aggregate (ws.Workers.eraseIdx i)).get "respawn_count")) := by
  obtain ⟨herr, hall⟩ := decodeArray_ok elems hwt
  have hdoc : decodeDocument (JSON.obj (before ++ (key, JSON.arr elems) :: after)) =
      ({ Workers := (decodeArray [] elems).1 }, none) := by
    simp only [decodeDocument, List.foldl_append, List.foldl_cons]
    rw [decodeDocumentObject_skip before hbefore, decodeDocumentObject_skip after hafter]
    unfold decodeDocumentMember
    rw [if_pos hkey]
    simp only [decodeWorkersValue, herr, saveError_none]
  have hdec : DecodeWorkers (JSON.obj (before ++ (key, JSON.arr elems) :: after)) =
      Except.ok { Workers := (decodeArray [] elems).1 } := by
    unfold DecodeWorkers
    rw [hdoc]
  refine ⟨{ Workers := (decodeArray [] elems).1 }, hdec, hall, ?_, ?_, ?_⟩
  · intro env p conn hu hd henv
    rw [FetchMetrics_dial_ok env p conn hu hd,
      decodeAndAggregate_ok env conn _ (henv.trans hdec)]
    exact ⟨rfl, rfl⟩
  · intro env p req resp hu hh hn hd henv
    rw [FetchMetrics_do_ok env p req resp hu hh hn hd,
      decodeAndAggregate_ok env _ _ (henv.trans hdec)]
    exact ⟨rfl, rfl⟩
  · intro i wm hi
    obtain ⟨w, hw, hrw⟩ := forall₂_getElem? elems _ hall i _ hi
    obtain ⟨hH, hR⟩ := hrw wm rfl
    refine ⟨fun hom => ?_, fun hom => ?_⟩
    · exact (aggregate_get_eraseIdx "harakiri_count" UWSGIWorker.HarakiriCount (by decide)
        loopBody_harakiri_count _ i w hw (hH hom).1).symm
    · exact (aggregate_get_eraseIdx "respawn_count" UWSGIWorker.RespawnCount (by decide)
        loopBody_respawn_count _ i w hw (hR hom).1).symm

/-- C14 at a snapshot whose only worker has neither counter: it decodes to a
record with both counters 0, the pass over a unix socket returns the
aggregate of that record, and both totals are the totals of the empty
sequence, 0.0. -/
theorem C14_omitted_counters_witness :
    keyMatches "workers" "workers" = true ∧ WellTypedWorker noCountersWorker ∧
    Omits Field.HarakiriCount noCountersWorker ∧ Omits Field.RespawnCount noCountersWorker ∧
    (DecodeWorkers noCountersDoc).toOption
      = some (UWSGIWorkers.mk [UWSGIWorker.mk 7 "busy" 100 200 3 12 0 0]) ∧
    (FetchMetrics (documentEnv noCountersDoc) unixPlugin).err = none ∧
    (FetchMetrics (documentEnv noCountersDoc) unixPlugin).stat.map
        (fun m => (m "requests", m "harakiri_count", m "respawn_count"))
      = some (some (F64.fin 7), some (F64.fin 0), some (F64.fin 0)) ∧
    (∃ ws : UWSGIWorkers, DecodeWorkers noCountersDoc = Except.ok ws ∧
      (aggregate ws.Workers).get "harakiri_count"
        = (aggregate (ws.Workers.eraseIdx 0)).get "harakiri_count" ∧
      (aggregate ws.Workers).get "respawn_count"
        = (aggregate (ws.Workers.eraseIdx 0)).get "respawn_count") := by
  have hwt : WellTypedWorker noCountersWorker := by
    intro kv hkv
    simp only [noCountersWorker, List.mem_cons, List.mem_singleton, List.not_mem_nil,
      or_false] at hkv
    rcases hkv with h | h | h | h | h | h | h <;> subst h <;> decide
  obtain ⟨ws, hdec, _, _, _, htot⟩ :=
    C14_omitted_counters [] [] "workers" [JSON.obj noCountersWorker] (by decide)
      (fun kv h => absurd h (List.not_mem_nil _)) (fun kv h => absurd h (List.not_mem_nil _))
      (fun e he => ⟨noCountersWorker, List.mem_singleton.mp he, hwt⟩)
  have h0 := htot 0 noCountersWorker rfl
  exact ⟨by decide, hwt, by decide, by decide, by decide, by decide, by decide!,
    ws, hdec, h0.1 (by decide), h0.2 (by decide)⟩

end UWSGIVassal
